import Mathlib

/-!
Verification of the lars log-format compiler and row-extraction engine
(waveform-computing/lars).

This file shallowly embeds the parts of `lars/apache.py`, `lars/iis.py`,
`lars/parsers.py` and `lars/datatypes/` that the verified claims are about:
Python strings become `List Char`, the compiled row regexes become a small
regex AST matched by a fuelled backtracking matcher with the same
leftmost/greedy semantics `re` uses on these patterns, parser functions
returning values or raising `ValueError` become `Except String Value`, and
the two iteration engines become folds producing a list of per-line
outcomes.  Machine-level caveats: `lars/strptime.py` (a backport of
CPython's `_strptime`) is not part of the provided sources, so the strptime
evaluator is modelled from the spec where noted.
-/

namespace Lars

/-! ## Python string primitives -/

/-- Python whitespace characters (the ASCII subset relevant to log lines). -/
def pyIsSpace (c : Char) : Bool :=
  c = ' ' || c = '\t' || c = '\n' || c = '\x0d' || c = '\x0b' || c = '\x0c'

/-- The `str.lstrip()` with no argument: drop leading whitespace. -/
def pyLstrip (s : List Char) : List Char :=
  s.dropWhile pyIsSpace

/-- The `str.rstrip()` with no argument: drop trailing whitespace. -/
def pyRstrip (s : List Char) : List Char :=
  (s.reverse.dropWhile pyIsSpace).reverse

/-- The `str.strip()` with no argument. -/
def pyStrip (s : List Char) : List Char :=
  pyRstrip (pyLstrip s)

def isAsciiDigit (c : Char) : Bool :=
  '0' ≤ c && c ≤ '9'

def isAsciiAlpha (c : Char) : Bool :=
  ('a' ≤ c && c ≤ 'z') || ('A' ≤ c && c ≤ 'Z')

def isAsciiAlnum (c : Char) : Bool :=
  isAsciiDigit c || isAsciiAlpha c

def pyLowerChar (c : Char) : Char :=
  if 'A' ≤ c && c ≤ 'Z' then Char.ofNat (c.toNat + 32) else c

def pyUpperChar (c : Char) : Char :=
  if 'a' ≤ c && c ≤ 'z' then Char.ofNat (c.toNat - 32) else c

/-- The `str.lower()` (ASCII; log-format tokens are ASCII). -/
def pyLower (s : List Char) : List Char :=
  s.map pyLowerChar

def digitVal (c : Char) : Nat := c.toNat - '0'.toNat

def hexVal (c : Char) : Nat :=
  if isAsciiDigit c then digitVal c
  else if 'a' ≤ c && c ≤ 'f' then c.toNat - 'a'.toNat + 10
  else if 'A' ≤ c && c ≤ 'F' then c.toNat - 'A'.toNat + 10
  else 0

def isHexDigit (c : Char) : Bool :=
  isAsciiDigit c || ('a' ≤ c && c ≤ 'f') || ('A' ≤ c && c ≤ 'F')

def natOfDigits (ds : List Char) : Nat :=
  ds.foldl (fun a c => a * 10 + digitVal c) 0

/-- Python `int(s)`: strips whitespace, accepts an optional sign followed by
one or more decimal digits; anything else raises `ValueError`. -/
def pyInt (s : List Char) : Except String Int := do
  let t := pyStrip s
  let (neg, ds) :=
    match t with
    | '-' :: r => (true, r)
    | '+' :: r => (false, r)
    | r => (false, r)
  if ds = [] || !(ds.all isAsciiDigit) then
    .error ("invalid literal for int: " ++ String.mk s)
  else
    let n : Int := Int.ofNat (natOfDigits ds)
    pure (if neg then -n else n)

/-! ## Calendar arithmetic (proleptic Gregorian, as `datetime` uses) -/

def isLeapYear (y : Nat) : Bool :=
  y % 4 = 0 && (y % 100 ≠ 0 || y % 400 = 0)

def daysInMonth (y m : Nat) : Nat :=
  if m = 2 then (if isLeapYear y then 29 else 28)
  else if m = 4 || m = 6 || m = 9 || m = 11 then 30
  else 31

/-- Days before the first day of month `m` in year `y` (m in 1..12). -/
def daysBeforeMonth (y m : Nat) : Nat :=
  (List.range (m - 1)).foldl (fun a i => a + daysInMonth y (i + 1)) 0

/-- Days from 0001-01-01 (day 0) to the given civil date. -/
def civilToDays (y m d : Nat) : Nat :=
  365 * (y - 1) + (y - 1) / 4 - (y - 1) / 100 + (y - 1) / 400 +
    daysBeforeMonth y m + (d - 1)

/-- Inverse of `civilToDays` (valid for years 1..9999), via the standard
era-based civil-from-days computation. -/
def daysToCivil (n : Nat) : Nat × Nat × Nat :=
  let z : Nat := n + 306                -- shift epoch to 0000-03-01
  let era : Nat := z / 146097
  let doe : Nat := z % 146097
  let yoe : Nat := (doe - doe / 1460 + doe / 36524 - doe / 146096) / 365
  let doy : Nat := doe - (365 * yoe + yoe / 4 - yoe / 100)
  let mp : Nat := (5 * doy + 2) / 153
  let d : Nat := doy - (153 * mp + 2) / 5 + 1
  let m : Nat := if mp < 10 then mp + 3 else mp - 9
  let y : Nat := yoe + era * 400 + (if m ≤ 2 then 1 else 0)
  (y, m, d)

/-! ## DateTime (`lars.datatypes.DateTime`, a `datetime.datetime` subclass) -/

/-- A timestamp: the constructor arguments of `datetime.datetime`, with the
fixed-offset `tzinfo` (from `lars.timezone.timezone`) reduced to its offset
in minutes. `tz = none` is a naive timestamp. -/
structure DateTime where
  year : Nat
  month : Nat
  day : Nat
  hour : Nat
  minute : Nat
  second : Nat
  microsecond : Nat
  tz : Option Int
deriving DecidableEq, Repr

/-- The `datetime.datetime(...)` range validation: raises `ValueError` outside
the documented ranges. The fixed-offset `timezone` additionally requires the
offset to be strictly between -24h and +24h. -/
def mkDateTime (y mo d h mi s us : Nat) (tz : Option Int) :
    Except String DateTime := do
  if !(1 ≤ y && y ≤ 9999) then .error "year out of range"
  else if !(1 ≤ mo && mo ≤ 12) then .error "month must be in 1..12"
  else if !(1 ≤ d && d ≤ daysInMonth y mo) then .error "day is out of range for month"
  else if !(h ≤ 23) then .error "hour must be in 0..23"
  else if !(mi ≤ 59) then .error "minute must be in 0..59"
  else if !(s ≤ 59) then .error "second must be in 0..59"
  else if !(us ≤ 999999) then .error "microsecond must be in 0..999999"
  else
    match tz with
    | some off =>
        if off ≤ -1440 || 1440 ≤ off then .error "offset must be a timedelta strictly between -timedelta(hours=24) and timedelta(hours=24)"
        else pure ⟨y, mo, d, h, mi, s, us, tz⟩
    | none => pure ⟨y, mo, d, h, mi, s, us, tz⟩

/-- The first six entries of `datetime.utctimetuple()`: for an aware
timestamp, normalize to UTC by subtracting the offset; for a naive one,
return the fields unchanged. -/
def utcTimetuple6 (t : DateTime) : Nat × Nat × Nat × Nat × Nat × Nat :=
  match t.tz with
  | none => (t.year, t.month, t.day, t.hour, t.minute, t.second)
  | some off =>
      let total : Int :=
        (Int.ofNat (civilToDays t.year t.month t.day)) * 86400 +
          Int.ofNat (t.hour * 3600 + t.minute * 60 + t.second) - off * 60
      let days : Nat := (total / 86400).toNat
      let rem : Nat := (total % 86400).toNat
      let (y, m, d) := daysToCivil days
      (y, m, d, rem / 3600, rem % 3600 / 60, rem % 60)

/-! ## The hard-coded `%t` parser: `apache._time_parse_common` -/

/-- The `s[i]` on a Python string; the caller's length guard keeps every direct
index below 24, so the default is never hit on accepted inputs. -/
def cAt (s : List Char) (i : Nat) : Char := s.getD i '\x00'

/-- Python slice `s[i:j]` (clipping, as slices do). -/
def pySlice (s : List Char) (i j : Nat) : List Char :=
  (s.drop i).take (j - i)

/-- The `['', 'jan', ..., 'dec'].index(x)`: 1-based month index or `ValueError`. -/
def monthIndex (x : List Char) : Except String Nat :=
  let months : List (List Char) :=
    [[], "jan".data, "feb".data, "mar".data, "apr".data, "may".data,
     "jun".data, "jul".data, "aug".data, "sep".data, "oct".data,
     "nov".data, "dec".data]
  match months.indexOf? x with
  | some i => pure i
  | none => .error "not in list"

/-- The `apache._time_parse_common`: parse the fixed `[%d/%b/%Y:%H:%M:%S %z]`
layout with explicit structural checks at each offset, then normalize to a
naive UTC timestamp via `utctimetuple()[:6]`. -/
def time_parse_common (s : List Char) : Except String DateTime := do
  if !(24 ≤ s.length && s.length ≤ 28) then .error "Invalid length"
  else if cAt s 0 ≠ '[' then .error "Expected [ at 0"
  else if s.getLast? ≠ some ']' then .error "Expected ] at end"
  else
    let i := 1
    let (day, i) ← (do
      if cAt s (i + 1) = '/' then pure (← pyInt [cAt s i], i + 1)
      else pure (← pyInt (pySlice s i (i + 2)), i + 2))
    if cAt s i ≠ '/' then .error "Expected / after day"
    else
      let i := i + 1
      let month ← monthIndex (pyLower (pySlice s i (i + 3)))
      let i := i + 3
      if cAt s i ≠ '/' then .error "Expected / after month"
      else
        let i := i + 1
        let year ← pyInt (pySlice s i (i + 4))
        let i := i + 4
        if cAt s i ≠ ':' then .error "Expected : after year"
        else
          let i := i + 1
          let (hour, i) ← (do
            if cAt s (i + 1) = ':' then pure (← pyInt [cAt s i], i + 1)
            else pure (← pyInt (pySlice s i (i + 2)), i + 2))
          if cAt s i ≠ ':' then .error "Expected : after hour"
          else
            let i := i + 1
            let (minute, i) ← (do
              if cAt s (i + 1) = ':' then pure (← pyInt [cAt s i], i + 1)
              else pure (← pyInt (pySlice s i (i + 2)), i + 2))
            if cAt s i ≠ ':' then .error "Expected : after minute"
            else
              let i := i + 1
              let (second, i) ← (do
                if cAt s (i + 1) = ' ' then pure (← pyInt [cAt s i], i + 1)
                else pure (← pyInt (pySlice s i (i + 2)), i + 2))
              if cAt s i ≠ ' ' then .error "Expected space after second"
              else
                let i := i + 1
                let tzSign := cAt s i
                if tzSign ≠ '-' && tzSign ≠ '+' then .error "Expected + or -"
                else
                  let i := i + 1
                  let hh ← pyInt (pySlice s i (i + 2))
                  let mm ← pyInt (pySlice s (i + 2) (i + 4))
                  let tzOffset : Int := hh * 60 + mm
                  let tzOffset := if tzSign = '-' then -tzOffset else tzOffset
                  if day < 0 || hour < 0 || minute < 0 || second < 0 then
                    .error "negative component"
                  else do
                    let tstamp ← mkDateTime year.toNat month day.toNat
                      hour.toNat minute.toNat second.toNat 0 (some tzOffset)
                    let (y, mo, d, h, mi, sec) := utcTimetuple6 tstamp
                    mkDateTime y mo d h mi sec 0 none

/-! ## strptime and `apache._time_parse_format` -/

/-- Modelled from the spec: `lars/strptime.py` (the backported CPython
`_strptime` that supplies `_strptime_datetime`) is not under the provided
sources.  Per §4.3(a) of the spec the parser interprets the matched fields
under the supplied strftime-like format; this evaluator handles the numeric
directives `%Y %m %d %H %M %S` (1-2 digit fields, 4 for `%Y`), the UTC
offset `%z` as a signed `HHMM` pair, and requires any other character of
the format to match literally. -/
def pyStrptimeAux : List Char → List Char →
    Except String (Nat × Nat × Nat × Nat × Nat × Nat × Option Int) →
    Except String (Nat × Nat × Nat × Nat × Nat × Nat × Option Int)
  | [], [], acc => acc
  | _ :: _, [], _ => .error "unconverted data remains"
  | s, '%' :: d :: fmt, acc => do
      let (y, mo, dd, h, mi, sec, tz) ← acc
      let takeNum (maxLen : Nat) (s : List Char) :
          Except String (Nat × List Char) :=
        let ds := (s.take maxLen).takeWhile isAsciiDigit
        if ds = [] then .error "time data does not match format"
        else pure (natOfDigits ds, s.drop ds.length)
      match d with
      | 'Y' => do
          let (v, rest) ← takeNum 4 s
          pyStrptimeAux rest fmt (pure (v, mo, dd, h, mi, sec, tz))
      | 'm' => do
          let (v, rest) ← takeNum 2 s
          pyStrptimeAux rest fmt (pure (y, v, dd, h, mi, sec, tz))
      | 'd' => do
          let (v, rest) ← takeNum 2 s
          pyStrptimeAux rest fmt (pure (y, mo, v, h, mi, sec, tz))
      | 'H' => do
          let (v, rest) ← takeNum 2 s
          pyStrptimeAux rest fmt (pure (y, mo, dd, v, mi, sec, tz))
      | 'M' => do
          let (v, rest) ← takeNum 2 s
          pyStrptimeAux rest fmt (pure (y, mo, dd, h, v, sec, tz))
      | 'S' => do
          let (v, rest) ← takeNum 2 s
          pyStrptimeAux rest fmt (pure (y, mo, dd, h, mi, v, tz))
      | 'z' =>
          match s with
          | sign :: h1 :: h2 :: m1 :: m2 :: rest =>
              if (sign = '+' || sign = '-') && [h1, h2, m1, m2].all isAsciiDigit
              then
                let off : Int := Int.ofNat (natOfDigits [h1, h2] * 60 + natOfDigits [m1, m2])
                let off := if sign = '-' then -off else off
                pyStrptimeAux rest fmt (pure (y, mo, dd, h, mi, sec, some off))
              else .error "time data does not match format"
          | _ => .error "time data does not match format"
      | _ => .error "unsupported directive"
  | c :: s, f :: fmt, acc =>
      if c = f && f ≠ '%' then pyStrptimeAux s fmt acc
      else .error "time data does not match format"
  | [], _ :: _, _ => .error "time data does not match format"

/-- Modelled from the spec: `_strptime_datetime(DateTime, s, fmt)` builds a
`DateTime` (aware when the format carried `%z`) from the matched fields. -/
def strptime_datetime (s fmt : List Char) : Except String DateTime := do
  let (y, mo, d, h, mi, sec, tz) ←
    pyStrptimeAux s fmt (pure (1900, 1, 1, 0, 0, 0, none))
  mkDateTime y mo d h mi sec 0 tz

/-- The `apache._time_parse_format`: run strptime under `fmt`, then strip the
offset after applying it (`utctimetuple()[:6]` plus the microsecond). -/
def time_parse_format (s fmt : List Char) : Except String DateTime := do
  let tstamp ← strptime_datetime s fmt
  let (y, mo, d, h, mi, sec) := utcTimetuple6 tstamp
  mkDateTime y mo d h mi sec tstamp.microsecond none

/-! ## A regex engine with Python `re` semantics on the patterns lars uses

The compiled row patterns and directive patterns are translated
constructor-by-constructor into this AST; the matcher below implements the
leftmost, ordered-alternation, greedy backtracking semantics of `re.match`
with named capturing groups, which is what these patterns rely on. -/

inductive Regex where
  | eps
  | lit (c : Char)
  | cls (neg : Bool) (items : List (Char × Char))
  | dot
  | cat (a b : Regex)
  | alt (a b : Regex)
  | star (r : Regex)
  | group (name : Option String) (r : Regex)
  | cond (name : String) (r : Regex)
  | bol
  | eol
deriving Repr, DecidableEq

namespace Regex

/-- The `r?` (greedy). -/
def opt (r : Regex) : Regex := .alt r .eps

/-- The `r+` (greedy). -/
def plus (r : Regex) : Regex := .cat r (.star r)

/-- The `r{n}`. -/
def rep : Nat → Regex → Regex
  | 0, _ => .eps
  | n + 1, r => .cat r (rep n r)

/-- The `r{0,n}` (greedy). -/
def repUpTo : Nat → Regex → Regex
  | 0, _ => .eps
  | n + 1, r => .alt (.cat r (repUpTo n r)) .eps

/-- The `r{lo,hi}` (greedy). -/
def repRange (lo hi : Nat) (r : Regex) : Regex :=
  .cat (rep lo r) (repUpTo (hi - lo) r)

/-- A literal string. -/
def str (s : String) : Regex :=
  s.data.foldr (fun c acc => .cat (.lit c) acc) .eps

/-- Ordered concatenation of a fragment list. -/
def all (rs : List Regex) : Regex :=
  rs.foldr .cat .eps

/-- Ordered alternation `a|b|...`. -/
def first : List Regex → Regex
  | [] => .eps
  | [r] => r
  | r :: rs => .alt r (first rs)

end Regex

/-- The character ranges of `\d`. -/
def dItems : List (Char × Char) := [('0', '9')]

/-- The characters of `\s`. -/
def sItems : List (Char × Char) :=
  [(' ', ' '), ('\t', '\t'), ('\n', '\n'), ('\x0b', '\x0b'),
   ('\x0c', '\x0c'), ('\x0d', '\x0d')]

def rDigit : Regex := .cls false dItems
def rSpace : Regex := .cls false sItems
def rNonSpace : Regex := .cls true sItems
def rHexDigitRe : Regex := .cls false [('0', '9'), ('a', 'f'), ('A', 'F')]

/-- Named captures recorded along the current (successful) matching path;
an absent name means the group did not participate. -/
abbrev Caps := List (String × List Char)

def capLookup (caps : Caps) (n : String) : Option (List Char) :=
  (caps.find? (fun p => p.1 = n)).map (·.2)

def charInItems (c : Char) (items : List (Char × Char)) : Bool :=
  items.any (fun p => p.1 ≤ c && c ≤ p.2)

/-- Character-class membership, honouring `re.IGNORECASE` the way `re`
does on ASCII (a char matches if it or its case-swapped form is in the
class). -/
def clsMatch (ci neg : Bool) (items : List (Char × Char)) (c : Char) : Bool :=
  let inIt :=
    if ci then
      charInItems c items || charInItems (pyLowerChar c) items ||
        charInItems (pyUpperChar c) items
    else charInItems c items
  if neg then !inIt else inIt

def litMatch (ci : Bool) (l c : Char) : Bool :=
  if ci then pyLowerChar l = pyLowerChar c else l = c

/-- A matcher state: captures, absolute position, remaining input. -/
abbrev MRes := Caps × Nat × List Char

/-- CPS backtracking matcher. Alternatives are tried in order and `star` is
greedy (one more iteration is preferred), reproducing `re`'s backtracking
order; as in `re`, a `star` iteration that consumes nothing ends the loop.
`fuel` bounds the star-unrolling depth of a single backtracking path; the
wrappers below always supply enough for every path. -/
def mrun (ci : Bool) : Nat → Regex → Caps → Nat → List Char →
    (Caps → Nat → List Char → Option MRes) → Option MRes
  | 0, _, _, _, _, _ => none
  | fuel + 1, r, caps, pos, s, k =>
    match r with
    | .eps => k caps pos s
    | .bol => if pos = 0 then k caps pos s else none
    | .eol => if s = [] then k caps pos s else none
    | .lit c =>
        match s with
        | [] => none
        | x :: rest => if litMatch ci c x then k caps (pos + 1) rest else none
    | .dot =>
        match s with
        | [] => none
        | x :: rest => if x = '\n' then none else k caps (pos + 1) rest
    | .cls neg items =>
        match s with
        | [] => none
        | x :: rest =>
            if clsMatch ci neg items x then k caps (pos + 1) rest else none
    | .cat a b =>
        mrun ci fuel a caps pos s (fun caps' pos' s' =>
          mrun ci fuel b caps' pos' s' k)
    | .alt a b =>
        match mrun ci fuel a caps pos s k with
        | some res => some res
        | none => mrun ci fuel b caps pos s k
    | .star r' =>
        match mrun ci fuel r' caps pos s (fun caps' pos' s' =>
            if pos < pos' then mrun ci fuel (.star r') caps' pos' s' k
            else none) with
        | some res => some res
        | none => k caps pos s
    | .group name r' =>
        mrun ci fuel r' caps pos s (fun caps' pos' s' =>
          match name with
          | some n => k ((n, s.take (pos' - pos)) :: caps') pos' s'
          | none => k caps' pos' s')
    | .cond name r' =>
        if (capLookup caps name).isSome then mrun ci fuel r' caps pos s k
        else k caps pos s

/-- Structural size of a pattern (used only to compute fuel). -/
def Regex.size : Regex → Nat
  | .eps | .bol | .eol | .dot | .lit _ | .cls _ _ => 1
  | .cat a b | .alt a b => a.size + b.size + 1
  | .star r | .group _ r | .cond _ r => r.size + 1

/-- Fuel that is sufficient for any single backtracking path: every starred
subpattern of the embedded patterns consumes at least one character per
iteration, so the unrolling depth per star is at most the input length. -/
def enoughFuel (r : Regex) (s : List Char) : Nat :=
  (Regex.size r + 1) * (s.length + 1) + 16

/-- The `pattern.match(s)` (anchored at the start, not at the end): named
captures and the end position of the match. -/
def rmatch (ci : Bool) (r : Regex) (s : List Char) :
    Option (Caps × Nat × List Char) :=
  mrun ci (enoughFuel r s) r [] 0 s (fun caps pos rest => some (caps, pos, rest))

/-- The `re.search` from absolute position `pos`: first position at which the
pattern matches, with the match's captures and end position. -/
def rsearchAux (ci : Bool) (r : Regex) :
    Nat → List Char → Option (Nat × Caps × Nat)
  | pos, s =>
    match mrun ci (enoughFuel r s) r [] pos s
        (fun caps p rest => some (caps, p, rest)) with
    | some (caps, endPos, _) => some (pos, caps, endPos)
    | none =>
        match s with
        | [] => none
        | _ :: t => rsearchAux ci r (pos + 1) t

def rsearch (ci : Bool) (r : Regex) (s : List Char) :
    Option (Nat × Caps × Nat) :=
  rsearchAux ci r 0 s

/-- The `pattern.findall(s)`: all non-overlapping matches, scanning left to
right, resuming after each match (advancing one position past an empty
match, as `re` does). Returns each match's captures; the fuel argument of
the worker is an upper bound on the number of matches, always supplied as
`length + 1`. -/
def rfindallAux (ci : Bool) (r : Regex) :
    Nat → Nat → List Char → List Caps
  | 0, _, _ => []
  | f + 1, pos, s =>
    match rsearchAux ci r pos s with
    | none => []
    | some (_, caps, endPos) =>
        if endPos - pos = 0 then
          match s with
          | [] => [caps]
          | _ :: t => caps :: rfindallAux ci r f (pos + 1) t
        else
          caps :: rfindallAux ci r f endPos (s.drop (endPos - pos))

def rfindall (ci : Bool) (r : Regex) (s : List Char) : List Caps :=
  rfindallAux ci r (s.length + 1) 0 s

/-! ## `lars.datatypes`: value constructors used by the field parsers -/

/-- The result tuple of `urlparse.urlparse` (`datatypes.Url`). -/
structure Url where
  scheme : List Char
  netloc : List Char
  pathStr : List Char
  params : List Char
  queryStr : List Char
  fragment : List Char
deriving DecidableEq, Repr

/-- The `datatypes.Request`: the three components of an HTTP request line. -/
structure RequestV where
  method : List Char
  url : Option Url
  protocol : List Char
deriving DecidableEq, Repr

/-- A typed field value as produced by the parser functions; `null` is
Python's `None`. A `fixed` value keeps the digit strings `float()` was
given (no claim depends on IEEE behaviour). -/
inductive Value where
  | null
  | str (s : List Char)
  | int (n : Int)
  | fixed (ip fp : List Char)
  | dateV (y m d : Nat)
  | timeV (h mi s us : Nat)
  | dtV (t : DateTime)
  | ipv4 (a b c d : Nat) (port : Option Nat)
  | ipv6 (text : List Char) (port : Option Nat)
  | host (s : List Char)
  | urlV (u : Url)
  | pathV (dirname basename ext : List Char)
  | requestV (r : RequestV)
deriving DecidableEq, Repr

/-- The `str.split(sep)` for a single-character separator (keeps empty parts). -/
def pySplitChar (sep : Char) (s : List Char) : List (List Char) :=
  match s with
  | [] => [[]]
  | c :: t =>
      match pySplitChar sep t with
      | [] => if c = sep then [[], []] else [[c]]
      | h :: r => if c = sep then [] :: h :: r else (c :: h) :: r

/-- Index of the first occurrence of `c` (`str.find`). -/
def pyFindChar (c : Char) (s : List Char) : Option Nat :=
  s.findIdx? (· = c)

/-- Index of the last occurrence of `c` (`str.rfind`). -/
def pyRFindChar (c : Char) (s : List Char) : Option Nat :=
  (s.reverse.findIdx? (· = c)).map (fun i => s.length - 1 - i)

/-- The `str.rstrip(ch)` for one specific character. -/
def pyRstripChar (ch : Char) (s : List Char) : List Char :=
  (s.reverse.dropWhile (· = ch)).reverse

/-! ### `urlparse.urlparse` (CPython), as used by `datatypes.url` -/

def schemeChars (c : Char) : Bool :=
  isAsciiAlnum c || c = '+' || c = '-' || c = '.'

/-- CPython `urlsplit`: scheme (lower-cased, letters/digits/`+-.` before the
first `:`), `//`-netloc up to `/?#`, fragment split at the first `#`, query
at the first `?`. -/
def pyUrlsplit (s : List Char) :
    List Char × List Char × List Char × List Char × List Char :=
  let (scheme, rest) :=
    match pyFindChar ':' s with
    | some i =>
        if 0 < i then
          let before := s.take i
          match before with
          | c :: _ =>
              if isAsciiAlpha c && before.all schemeChars then
                (pyLower before, s.drop (i + 1))
              else ([], s)
          | [] => ([], s)
        else ([], s)
    | none => ([], s)
  let (netloc, rest) :=
    match rest with
    | '/' :: '/' :: r =>
        let n := r.takeWhile (fun c => c ≠ '/' && c ≠ '?' && c ≠ '#')
        (n, r.drop n.length)
    | _ => ([], rest)
  let (rest, fragment) :=
    match pyFindChar '#' rest with
    | some i => (rest.take i, rest.drop (i + 1))
    | none => (rest, [])
  let (path, query) :=
    match pyFindChar '?' rest with
    | some i => (rest.take i, rest.drop (i + 1))
    | none => (rest, [])
  (scheme, netloc, path, query, fragment)

/-- The `uses_params` scheme list of CPython's `urlparse` module. -/
def usesParams : List (List Char) :=
  [[], "ftp".data, "hdl".data, "prospero".data, "http".data, "imap".data,
   "https".data, "shttp".data, "rtsp".data, "rtspu".data, "sip".data,
   "sips".data, "mms".data, "sftp".data, "tel".data]

/-- CPython `_splitparams`. -/
def pySplitparams (url : List Char) : List Char × List Char :=
  let iOpt :=
    match pyRFindChar '/' url with
    | some slash =>
        match pyFindChar ';' (url.drop slash) with
        | some j => some (slash + j)
        | none => none
    | none => pyFindChar ';' url
  match iOpt with
  | some i => (url.take i, url.drop (i + 1))
  | none => (url, [])

/-- CPython `urlparse.urlparse`, producing the six-component tuple that
`datatypes.url` wraps in `Url`. -/
def pyUrlparse (s : List Char) : Url :=
  let (scheme, netloc, path, query, fragment) := pyUrlsplit s
  let (path, params) :=
    if usesParams.contains scheme && (pyFindChar ';' path).isSome then
      pySplitparams path
    else (path, [])
  ⟨scheme, netloc, path, params, query, fragment⟩

/-- The `datatypes.url`. -/
def dtUrl (s : List Char) : Url := pyUrlparse s

/-- The `datatypes.path`: split into dirname, basename, extension. -/
def dtPath (s : List Char) : Value :=
  let i := (match pyRFindChar '/' s with | some j => j + 1 | none => 0)
  let dirname := s.take i
  let basename := s.drop i
  let dirname :=
    if dirname ≠ [] && !(dirname.all (· = '/')) then pyRstripChar '/' dirname
    else dirname
  let ext :=
    match pyRFindChar '.' basename with
    | some j => if 0 < j then basename.drop j else []
    | none => []
  .pathV dirname basename ext

/-- The `datatypes.request`: `method SP url SP protocol`, with `*` meaning no
URL; missing separators or a blank URL raise `ValueError`. -/
def dtRequest (s : List Char) : Except String RequestV := do
  let (method, s) ←
    match pyFindChar ' ' s with
    | some i => pure (s.take i, s.drop (i + 1))
    | none => .error "Request line is missing a space separated method"
  let (mid, protocol) ←
    match pyRFindChar ' ' s with
    | some i => pure (s.take i, s.drop (i + 1))
    | none => .error "Request line is missing a space separated protocol"
  let mid := pyStrip mid
  if mid = [] then .error "Request line URL cannot be blank"
  else pure ⟨method, if mid = ['*'] then none else some (dtUrl mid), protocol⟩

/-! ### IP addresses and hostnames (`lars.datatypes.ipaddress`) -/

/-- One dotted-quad octet: 1-3 decimal digits, value at most 255. -/
def parseOctet (p : List Char) : Option Nat :=
  if p ≠ [] && p.length ≤ 3 && p.all isAsciiDigit && natOfDigits p ≤ 255 then
    some (natOfDigits p)
  else none

/-- The `ipaddress.IPv4Address(s)`: four dot-separated octets. -/
def parseIPv4 (s : List Char) : Option (Nat × Nat × Nat × Nat) :=
  match (pySplitChar '.' s).mapM parseOctet with
  | some [a, b, c, d] => some (a, b, c, d)
  | _ => none

/-- One IPv6 hextet: 1-4 hex digits. -/
def isHextet (p : List Char) : Bool :=
  p ≠ [] && p.length ≤ 4 && p.all isHexDigit

/-- The `ipaddress.IPv6Address(s)` validity: colon-separated hextets with at
most one `::` elision and the standard group-count constraints (the
embedded-IPv4 tail form is not needed by any log field these claims touch
and is not accepted here). -/
def isValidIPv6 (s : List Char) : Bool :=
  let parts := pySplitChar ':' s
  let empties := parts.filter (· = []) |>.length
  if parts.length < 3 || parts.length > 9 then false
  else
    match parts with
    | [] => false
    | _ =>
        let fullGroups := parts.filter (· ≠ [])
        if !fullGroups.all isHextet then false
        else if empties = 0 then parts.length = 8
        else
          -- '::' forms: leading/trailing '::' produce two adjacent empties
          let lead := if parts.head? = some [] then 1 else 0
          let trail := if parts.getLast? = some [] then 1 else 0
          let interior := empties - lead - trail
          if s = "::".data then true
          else if lead + trail = 0 then interior = 1 && fullGroups.length ≤ 7
          else if (lead = 1 && trail = 0) || (lead = 0 && trail = 1) then
            empties = 2 && fullGroups.length ≤ 7
          else false

/-- The `Hostname.name_part_re`: `^[a-zA-Z0-9]([a-zA-Z0-9-]{0,61}[a-zA-Z0-9])?$`. -/
def namePartRe : Regex :=
  Regex.all
    [.bol, .cls false [('a', 'z'), ('A', 'Z'), ('0', '9')],
     Regex.opt (.group none (Regex.all
       [Regex.repUpTo 61 (.cls false [('a', 'z'), ('A', 'Z'), ('0', '9'), ('-', '-')]),
        .cls false [('a', 'z'), ('A', 'Z'), ('0', '9')]])),
     .eol]

/-- The `Hostname.__init__` validation: length at most 255 and every dot-part
matching `name_part_re`. -/
def isValidHostname (s : List Char) : Bool :=
  s.length ≤ 255 &&
    (pySplitChar '.' s).all (fun p => (rmatch false namePartRe p).isSome)

/-- The `datatypes.hostname`: IPv4, then IPv6, then a validated hostname
(whose own validation error propagates). -/
def dtHostname (s : List Char) : Except String Value :=
  match parseIPv4 s with
  | some (a, b, c, d) => pure (.ipv4 a b c d none)
  | none =>
      if isValidIPv6 s then pure (.ipv6 s none)
      else if isValidHostname s then pure (.host s)
      else .error "DNS label is invalid"

/-- The `IPv4Port(s)`: optional `:port` suffix split at the last colon; the
port must be an integer in 0..65535. -/
def parseIPv4Port (s : List Char) : Except String Value := do
  match pyRFindChar ':' s with
  | some i =>
      let port ← pyInt (s.drop (i + 1))
      if port < 0 || 65535 < port then .error "Invalid port"
      else
        match parseIPv4 (s.take i) with
        | some (a, b, c, d) => pure (.ipv4 a b c d (some port.toNat))
        | none => .error "invalid IPv4 address"
  | none =>
      match parseIPv4 s with
      | some (a, b, c, d) => pure (.ipv4 a b c d none)
      | none => .error "invalid IPv4 address"

/-- The `IPv6Port(s)`: `rpartition(':')` with the `[addr]` / `[addr]:port` /
bare-address cases of the source. -/
def parseIPv6Port (s : List Char) : Except String Value := do
  match pyRFindChar ':' s with
  | some i =>
      let addr := s.take i
      let port := s.drop (i + 1)
      if port.getLast? = some ']' then
        let a := addr.drop 1 ++ ':' :: port.dropLast
        if isValidIPv6 a then pure (.ipv6 a none) else .error "invalid IPv6 address"
      else if addr.getLast? = some ']' then do
        let a := (addr.drop 1).dropLast
        let p ← pyInt port
        if p < 0 || 65535 < p then .error "Invalid port"
        else if isValidIPv6 a then pure (.ipv6 a (some p.toNat))
        else .error "invalid IPv6 address"
      else
        if isValidIPv6 s then pure (.ipv6 s none) else .error "invalid IPv6 address"
  | none => .error "invalid IPv6 address"

/-- The `datatypes.address`: IPv4, IPv6, IPv4-with-port, IPv6-with-port, else
`ValueError`. -/
def dtAddress (s : List Char) : Except String Value :=
  match parseIPv4 s with
  | some (a, b, c, d) => pure (.ipv4 a b c d none)
  | none =>
      if isValidIPv6 s then pure (.ipv6 s none)
      else
        match parseIPv4Port s with
        | .ok v => pure v
        | .error _ =>
            match parseIPv6Port s with
            | .ok v => pure v
            | .error _ =>
                .error "does not appear to be a valid IPv4 or IPv6 address"

/-! ### `datatypes.sanitize_name` and `datatypes.row` (namedtuple) -/

def sanOk (c : Char) : Bool := isAsciiAlnum c || c = '_'

/-- Collapse each maximal run of invalid characters into one `_`
(`re.sub(r'[^A-Za-z0-9_]+', '_', ...)`). -/
def sanRest : Bool → List Char → List Char
  | _, [] => []
  | inRun, c :: t =>
      if sanOk c then c :: sanRest false t
      else if inRun then sanRest true t
      else '_' :: sanRest true t

/-- The `datatypes.sanitize_name`: blank input raises; the first character is
forced to `[A-Za-z_]`, the remainder has invalid runs collapsed to `_`. -/
def sanitize_name (s : List Char) : Except String (List Char) :=
  match s with
  | [] => .error "Cannot sanitize a blank string"
  | c :: t =>
      pure ((if isAsciiAlpha c || c = '_' then c else '_') :: sanRest false t)

def pyKeywords : List (List Char) :=
  ["False", "None", "True", "and", "as", "assert", "async", "await", "break",
   "class", "continue", "def", "del", "elif", "else", "except", "finally",
   "for", "from", "global", "if", "import", "in", "is", "lambda", "nonlocal",
   "not", "or", "pass", "raise", "return", "try", "while", "with",
   "yield"].map String.data

def pyIsIdentifier (s : List Char) : Bool :=
  match s with
  | [] => false
  | c :: t => (isAsciiAlpha c || c = '_') && t.all sanOk

/-- The `str(x)` applied to a field name that may be Python `None`. -/
def pyStrOfName (n : Option (List Char)) : List Char :=
  match n with
  | some s => s
  | none => "None".data

/-- The `collections.namedtuple('Row', names)` validation, as performed by
`datatypes.row`: every name (after `str()` conversion) must be an
identifier, not a keyword, not start with `_`, and not repeat. -/
def dupFree : List (List Char) → Bool
  | [] => true
  | x :: r => !r.contains x && dupFree r

def rowCheck (names : List (List Char)) : Except String Unit := do
  for n in names do
    if !pyIsIdentifier n then
      .error "Type names and field names must be valid identifiers"
    else if pyKeywords.contains n then
      .error "Type names and field names cannot be a keyword"
    else pure ()
  for n in names do
    if n.head? = some '_' then
      .error "Field names cannot start with an underscore"
    else pure ()
  if !(dupFree names) then .error "Encountered duplicate field name"
  else pure ()

/-! ### `datatypes.date` / `datatypes.time` (via `DateTime.strptime`) -/

/-- The `datatypes.date(s, '%Y-%m-%d')`. -/
def dtDate (s : List Char) : Except String Value := do
  let t ← strptime_datetime s "%Y-%m-%d".data
  pure (.dateV t.year t.month t.day)

/-- The `datatypes.time(s, '%H:%M:%S')`. -/
def dtTime (s : List Char) : Except String Value := do
  let t ← strptime_datetime s "%H:%M:%S".data
  pure (.timeV t.hour t.minute t.second t.microsecond)

/-- The `datatypes.datetime(s, '%Y-%m-%d %H:%M:%S')`. -/
def dtDatetime (s : List Char) : Except String Value := do
  let t ← strptime_datetime s "%Y-%m-%d %H:%M:%S".data
  pure (.dtV t)

/-! ## `lars.parsers`: shared regex fragments and parser functions

Each fragment function takes the output-field name that the engine
substitutes for `%(name)s` and returns the translation of the fragment's
regex, constructor by constructor. -/

namespace parsers

/-- The `_URL`: `([^:/?#\s]+:)?(//[^/?#\s]*)?[^?#\s]*(\?[^#\s]*)?(#\S*)?`
(RFC3986 appendix B extraction). -/
def urlCore : Regex :=
  Regex.all
    [Regex.opt (.group none (.cat
        (Regex.plus (.cls true ((':', ':') :: ('/', '/') :: ('?', '?') :: ('#', '#') :: sItems)))
        (.lit ':'))),
     Regex.opt (.group none (.cat (Regex.str "//")
        (.star (.cls true (('/', '/') :: ('?', '?') :: ('#', '#') :: sItems))))),
     .star (.cls true (('?', '?') :: ('#', '#') :: sItems)),
     Regex.opt (.group none (.cat (.lit '?')
        (.star (.cls true (('#', '#') :: sItems))))),
     Regex.opt (.group none (.cat (.lit '#') (.star rNonSpace)))]

/-- The `_PATH`: `([^\x00-\x1f\x7f]*)`. -/
def pathCore : Regex :=
  .group none (.star (.cls true [('\x00', '\x1f'), ('\x7f', '\x7f')]))

/-- The `_METHOD`: the RFC2616 token production
`[^\x00-\x1f\x7f(){}<>[\]@,;:\\"/?= \t]+`. -/
def methodCore : Regex :=
  Regex.plus (.cls true
    [('\x00', '\x1f'), ('\x7f', '\x7f'), ('(', '('), (')', ')'),
     ('\x7b', '\x7b'), ('\x7d', '\x7d'), ('<', '<'), ('>', '>'),
     ('[', '['), (']', ']'), ('@', '@'), (',', ','), (';', ';'),
     (':', ':'), ('\\', '\\'), ('"', '"'), ('/', '/'), ('?', '?'),
     ('=', '='), (' ', ' '), ('\t', '\t')])

/-- The `_PROTOCOL`: `HTTP/\d+\.\d+`. -/
def protocolCore : Regex :=
  Regex.all [Regex.str "HTTP/", Regex.plus rDigit, .lit '.', Regex.plus rDigit]

/-- The `INTEGER`: `(?P<name>-|\d+)`. -/
def INTEGER (name : String) : Regex :=
  .group (some name) (.alt (.lit '-') (Regex.plus rDigit))

/-- The `FIXED`: `(?P<name>-|\d+(\.\d*)?)`. -/
def FIXED (name : String) : Regex :=
  .group (some name) (.alt (.lit '-')
    (.cat (Regex.plus rDigit)
      (Regex.opt (.group none (.cat (.lit '.') (.star rDigit))))))

/-- The `DATE_ISO`: `(?P<name>-|\d{4}-\d{2}-\d{2})`. -/
def DATE_ISO (name : String) : Regex :=
  .group (some name) (.alt (.lit '-')
    (Regex.all [Regex.rep 4 rDigit, .lit '-', Regex.rep 2 rDigit, .lit '-',
                Regex.rep 2 rDigit]))

/-- The `TIME_ISO`: `(?P<name>-|\d{2}:\d{2}:\d{2})`. -/
def TIME_ISO (name : String) : Regex :=
  .group (some name) (.alt (.lit '-')
    (Regex.all [Regex.rep 2 rDigit, .lit ':', Regex.rep 2 rDigit, .lit ':',
                Regex.rep 2 rDigit]))

/-- The `URL`: `(?P<name>_URL|-)`. -/
def URL (name : String) : Regex :=
  .group (some name) (.alt urlCore (.lit '-'))

/-- The `PATH`: `(?P<name>_PATH|-)`. -/
def PATH (name : String) : Regex :=
  .group (some name) (.alt pathCore (.lit '-'))

/-- The `METHOD`: `(?P<name>_METHOD|-)`. -/
def METHOD (name : String) : Regex :=
  .group (some name) (.alt methodCore (.lit '-'))

/-- The `PROTOCOL`: `(?P<name>_PROTOCOL|-)`. -/
def PROTOCOL (name : String) : Regex :=
  .group (some name) (.alt protocolCore (.lit '-'))

/-- The `REQUEST`: `(?P<name>_METHOD _URL _PROTOCOL|-)`. -/
def REQUEST (name : String) : Regex :=
  .group (some name) (.alt
    (Regex.all [methodCore, .lit ' ', urlCore, .lit ' ', protocolCore])
    (.lit '-'))

/-- The `HOSTNAME`: `(?P<name>-|[a-zA-Z0-9:.-]+)`. -/
def HOSTNAME (name : String) : Regex :=
  .group (some name) (.alt (.lit '-')
    (Regex.plus (.cls false
      [('a', 'z'), ('A', 'Z'), ('0', '9'), (':', ':'), ('.', '.'), ('-', '-')])))

/-- The `ADDRESS`: `(?P<name>-|[0-9]+(\.[0-9]+){3}|[0-9a-fA-F:]+)`. -/
def ADDRESS (name : String) : Regex :=
  .group (some name) (Regex.first
    [.lit '-',
     .cat (Regex.plus rDigit)
       (Regex.rep 3 (.group none (.cat (.lit '.') (Regex.plus rDigit)))),
     Regex.plus (.cls false [('0', '9'), ('a', 'f'), ('A', 'F'), (':', ':')])])

/-- The `ADDRESS_PORT`:
`(?P<name>-|([0-9]+(\.[0-9]+){3}|\[[0-9a-fA-F:]+\])(:[0-9]{1,5})?)`. -/
def ADDRESS_PORT (name : String) : Regex :=
  .group (some name) (.alt (.lit '-')
    (.cat
      (.group none (.alt
        (.cat (Regex.plus rDigit)
          (Regex.rep 3 (.group none (.cat (.lit '.') (Regex.plus rDigit)))))
        (Regex.all [.lit '[',
          Regex.plus (.cls false [('0', '9'), ('a', 'f'), ('A', 'F'), (':', ':')]),
          .lit ']'])))
      (Regex.opt (.group none
        (.cat (.lit ':') (Regex.repRange 1 5 rDigit))))))

/-- The `parsers.request_parse`. -/
def request_parse (s : List Char) : Except String Value :=
  if s ≠ "-".data then (Value.requestV ·) <$> dtRequest s else pure .null

/-- The `parsers.url_parse` (note: also `None` on the empty string). -/
def url_parse (s : List Char) : Except String Value :=
  if s ≠ "-".data && s ≠ [] then pure (.urlV (dtUrl s)) else pure .null

/-- The `parsers.path_parse`. -/
def path_parse (s : List Char) : Except String Value :=
  if s ≠ "-".data then pure (dtPath s) else pure .null

/-- The `parsers.int_parse`. -/
def int_parse (s : List Char) : Except String Value :=
  if s ≠ "-".data then (Value.int ·) <$> pyInt s else pure .null

/-- The `float(s)` on the shapes the `FIXED` fragment can capture
(`\d+(\.\d*)?`, optionally signed); anything else raises `ValueError`. -/
def pyFloat (s : List Char) : Except String Value := do
  let t := pyStrip s
  let (ip, rest) := (t.takeWhile isAsciiDigit, t.dropWhile isAsciiDigit)
  if ip = [] then .error "could not convert string to float"
  else
    match rest with
    | [] => pure (.fixed ip [])
    | '.' :: fp =>
        if fp.all isAsciiDigit then pure (.fixed ip fp)
        else .error "could not convert string to float"
    | _ => .error "could not convert string to float"

/-- The `parsers.fixed_parse`. -/
def fixed_parse (s : List Char) : Except String Value :=
  if s ≠ "-".data then pyFloat s else pure .null

/-- The `parsers.date_parse` (default format `%Y-%m-%d`). -/
def date_parse (s : List Char) : Except String Value :=
  if s ≠ "-".data then dtDate s else pure .null

/-- The `parsers.time_parse` (default format `%H:%M:%S`). -/
def time_parse (s : List Char) : Except String Value :=
  if s ≠ "-".data then dtTime s else pure .null

/-- The `parsers.hostname_parse`. -/
def hostname_parse (s : List Char) : Except String Value :=
  if s ≠ "-".data then dtHostname s else pure .null

/-- The `parsers.address_parse`. -/
def address_parse (s : List Char) : Except String Value :=
  if s ≠ "-".data then dtAddress s else pure .null

end parsers

/-! ## The Apache and IIS string parsers -/

/-- The `re.sub` worker: repeatedly find the leftmost match and splice in the
replacement of the matched text (the patterns this is used with never
match the empty string). -/
def rsubAux (ci : Bool) (r : Regex) (repl : List Char → List Char) :
    Nat → Nat → List Char → List Char
  | 0, _, s => s
  | f + 1, pos, s =>
    match rsearchAux ci r pos s with
    | none => s
    | some (start, _, endPos) =>
        let pre := s.take (start - pos)
        let matched := pySlice s (start - pos) (endPos - pos)
        let rest := s.drop (endPos - pos)
        if endPos = start then
          pre ++ repl matched ++
            (match rest with
             | [] => []
             | c :: t => c :: rsubAux ci r repl f (endPos + 1) t)
        else pre ++ repl matched ++ rsubAux ci r repl f endPos rest

def rsub (ci : Bool) (r : Regex) (repl : List Char → List Char)
    (s : List Char) : List Char :=
  rsubAux ci r repl (s.length + 1) 0 s

namespace apache

/-- The `_STRING_PARSE_RE`: `\\(x[0-9a-fA-F]{2}|[^x])`. -/
def STRING_PARSE_RE : Regex :=
  .cat (.lit '\\') (.group none (.alt
    (Regex.all [.lit 'x', rHexDigitRe, rHexDigitRe])
    (.cls true [('x', 'x')])))

/-- The `unescape` replacement of `apache._string_parse`: `\xHH` becomes
the coded character, `\n`/`\t`/`\f` the control character, any other
escaped character itself. -/
def unescape (m : List Char) : List Char :=
  match m with
  | '\\' :: 'x' :: h1 :: h2 :: [] => [Char.ofNat (hexVal h1 * 16 + hexVal h2)]
  | '\\' :: 'n' :: [] => ['\n']
  | '\\' :: 't' :: [] => ['\t']
  | '\\' :: 'f' :: [] => ['\x0c']
  | _ =>
      match m.getLast? with
      | some c => [c]
      | none => []

/-- The `apache._string_parse`: `None` on `-`, otherwise undo Apache's
backslash escaping. -/
def string_parse (s : List Char) : Except String Value :=
  if s = "-".data then pure .null
  else pure (.str (rsub false STRING_PARSE_RE unescape s))

end apache

namespace iis

/-- The `urllib.unquote_plus`: `+` to space, `%XX` hex sequences decoded,
invalid sequences left verbatim. -/
def unquotePlus : List Char → List Char
  | [] => []
  | '%' :: h1 :: h2 :: t =>
      if isHexDigit h1 && isHexDigit h2 then
        Char.ofNat (hexVal h1 * 16 + hexVal h2) :: unquotePlus t
      else '%' :: unquotePlus (h1 :: h2 :: t)
  | '+' :: t => ' ' :: unquotePlus t
  | c :: t => c :: unquotePlus t

/-- The `str.replace('""', '"')`: non-overlapping left-to-right. -/
def halveQuotes : List Char → List Char
  | '"' :: '"' :: t => '"' :: halveQuotes t
  | c :: t => c :: halveQuotes t
  | [] => []

/-- The `iis._string_parse`: `None` on `-`; quoted strings lose the outer
quotes and halve doubled inner quotes; anything else is URI-decoded. -/
def string_parse (s : List Char) : Except String Value :=
  if s = "-".data then pure .null
  else if s.head? = some '"' then
    pure (.str (halveQuotes ((s.drop 1).dropLast)))
  else pure (.str (unquotePlus s))

end iis

/-! ## Defunctionalized field parsers

The dispatch tables store parser *functions*; the embedding represents
each stored function by a tag so that compiled formats are comparable, and
`applyParser` gives the tag its meaning. A `none` parser entry in the
source tables becomes `identityK` (the engine builds an identity function
for it). -/

inductive ParserKind where
  | addressK
  | pathK
  | hostnameK
  | integerK
  | identityK
  | requestK
  | urlK
  | stringApacheK
  | stringIISK
  | fixedK
  | dateIsoK
  | timeIsoK
  | addressPortK
  | timeCommonK
  | timeFormatK (fmt : List Char)
deriving DecidableEq, Repr

def applyParser : ParserKind → List Char → Except String Value
  | .addressK, s => parsers.address_parse s
  | .pathK, s => parsers.path_parse s
  | .hostnameK, s => parsers.hostname_parse s
  | .integerK, s => parsers.int_parse s
  | .identityK, s => pure (.str s)
  | .requestK, s => parsers.request_parse s
  | .urlK, s => parsers.url_parse s
  | .stringApacheK, s => apache.string_parse s
  | .stringIISK, s => iis.string_parse s
  | .fixedK, s => parsers.fixed_parse s
  | .dateIsoK, s => parsers.date_parse s
  | .timeIsoK, s => parsers.time_parse s
  | .addressPortK, s => parsers.address_parse s
  | .timeCommonK, s => (Value.dtV ·) <$> time_parse_common s
  | .timeFormatK fmt, s => (Value.dtV ·) <$> time_parse_format s fmt

/-! ## `lars.apache`: the LogFormat compiler and row engine -/

namespace apache

/-- The `apache.COMMON`: the Common Log Format. -/
def COMMON : List Char := "%h %l %u %t \"%r\" %>s %b".data

/-- The `apache.COMBINED`. -/
def COMBINED : List Char :=
  ("%h %l %u %t \"%r\" %>s %b \"%\x7bReferer\x7di\" " ++
   "\"%\x7bUser-agent\x7di\"").data

/-- Python truthiness of the extracted `{field}` payload (`None` and the
empty string are both falsy). -/
def pyTruthy (d : Option (List Char)) : Bool :=
  match d with
  | none => false
  | some s => s ≠ []

/-- The `FIELD_DEFS`: format suffix to (name template, type tag). -/
def FIELD_DEFS (c : Char) : Option (String × String) :=
  match c with
  | 'a' => some ("remote_ip", "address")
  | 'A' => some ("local_ip", "address")
  | 'B' => some ("size", "integer")
  | 'b' => some ("size", "integer")
  | 'C' => some ("cookie_%s", "string")
  | 'D' => some ("time_taken_ms", "integer")
  | 'e' => some ("env_%s", "string")
  | 'f' => some ("filename", "path")
  | 'h' => some ("remote_host", "hostname")
  | 'H' => some ("protocol", "protocol")
  | 'i' => some ("req_%s", "string")
  | 'k' => some ("keepalive", "integer")
  | 'l' => some ("ident", "string")
  | 'm' => some ("method", "method")
  | 'n' => some ("note_%s", "string")
  | 'o' => some ("resp_%s", "string")
  | 'p' => some ("port", "integer")
  | 'P' => some ("pid", "integer")
  | 'q' => some ("url_query", "url-query")
  | 'r' => some ("request", "request")
  | 'R' => some ("handler", "string")
  | 's' => some ("status", "integer")
  | 't' => some ("time", "time")
  | 'T' => some ("time_taken", "integer")
  | 'u' => some ("remote_user", "string")
  | 'U' => some ("url_stem", "url-stem")
  | 'v' => some ("server_name", "hostname")
  | 'V' => some ("canonical_name", "hostname")
  | 'X' => some ("connection_status", "keepalive")
  | 'I' => some ("bytes_received", "integer")
  | 'O' => some ("bytes_sent", "integer")
  | _ => none

/-- Substitute the sanitized payload into a `..._%s` name template. -/
def substTemplate (tmpl : String) (payload : List Char) : List Char :=
  let rec go : List Char → List Char
    | '%' :: 's' :: t => payload ++ go t
    | c :: t => c :: go t
    | [] => []
  go tmpl.data

/-- The `apache._generate_name`: the `%{...}C/e/i/n/o` payload is sanitized
into the template (missing payload raises); `%{...}p` and `%{...}P` admit
only their fixed vocabularies (any other non-empty payload raises, and no
payload falls through returning `None`); every other suffix returns its
template. -/
def _generate_name (tmpl : String) (data : Option (List Char))
    (suffix : Char) : Except String (Option (List Char)) :=
  if "Ceino".data.contains suffix then
    if !pyTruthy data then
      .error "Missing field for format suffix"
    else do
      let d := (match data with | some d => d | none => [])
      let s ← sanitize_name d
      pure (some (substTemplate tmpl s))
  else if suffix = 'p' then
    if pyTruthy data then
      match data with
      | some d =>
          if d = "canonical".data then pure (some "port".data)
          else if d = "local".data then pure (some "local_port".data)
          else if d = "remote".data then pure (some "remote_port".data)
          else .error "Invalid format in p spec"
      | none => pure none
    else pure none
  else if suffix = 'P' then
    if pyTruthy data then
      match data with
      | some d =>
          if d = "pid".data then pure (some "pid".data)
          else if d = "tid".data then pure (some "tid".data)
          else if d = "hextid".data then pure (some "hextid".data)
          else .error "Invalid format in P spec"
      | none => pure none
    else pure none
  else pure (some tmpl.data)

/-- The Apache opaque-string fragment
`(?P<name>(?:[^\x00-\x1f\x7f\\"]|\\x[0-9a-fA-F]{2}|\\[^x])*|-)`. -/
def STRING (name : String) : Regex :=
  .group (some name) (.alt
    (.star (Regex.first
      [.cls true [('\x00', '\x1f'), ('\x7f', '\x7f'), ('\\', '\\'), ('"', '"')],
       Regex.all [.lit '\\', .lit 'x', rHexDigitRe, rHexDigitRe],
       .cat (.lit '\\') (.cls true [('x', 'x')])]))
    (.lit '-'))

/-- The keep-alive flag fragment `(?P<name>[X+-])`. -/
def KEEPALIVE (name : String) : Regex :=
  .group (some name) (.cls false [('X', 'X'), ('+', '+'), ('-', '-')])

/-- The `url-stem` fragment
`(?P<name>([^:/?#\s]+:)?(//[^/?#\s]*)?[^?#\s]*)`. -/
def URL_STEM (name : String) : Regex :=
  .group (some name) (Regex.all
    [Regex.opt (.group none (.cat
        (Regex.plus (.cls true ((':', ':') :: ('/', '/') :: ('?', '?') :: ('#', '#') :: sItems)))
        (.lit ':'))),
     Regex.opt (.group none (.cat (Regex.str "//")
        (.star (.cls true (('/', '/') :: ('?', '?') :: ('#', '#') :: sItems))))),
     .star (.cls true (('?', '?') :: ('#', '#') :: sItems))])

/-- The `url-query` fragment `(?P<name>(\?[^#\s]*)?(#\S*)?)`. -/
def URL_QUERY (name : String) : Regex :=
  .group (some name) (Regex.all
    [Regex.opt (.group none (.cat (.lit '?')
        (.star (.cls true (('#', '#') :: sItems))))),
     Regex.opt (.group none (.cat (.lit '#') (.star rNonSpace)))])

/-- The hard-coded `%t` fragment built in `_generate_parse_fn`:
`(?P<name>\[(?:3[0-1]|[1-2]\d|0[1-9]|[1-9]| [1-9])/(?:jan|feb|ma[ry]|apr|ju[nl]|aug|sep|oct|nov|dec)/(?:\d\d\d\d):(?:2[0-3]|[0-1]\d|\d):(?:[0-5]\d|\d):(?:6[0-1]|[0-5]\d|\d)\s+(?:[+-]\d\d[0-5]\d)\])`. -/
def TIME_COMMON (name : String) : Regex :=
  .group (some name) (Regex.all
    [.lit '[',
     Regex.first
       [.cat (.lit '3') (.cls false [('0', '1')]),
        .cat (.cls false [('1', '2')]) rDigit,
        .cat (.lit '0') (.cls false [('1', '9')]),
        .cls false [('1', '9')],
        .cat (.lit ' ') (.cls false [('1', '9')])],
     .lit '/',
     Regex.first
       [Regex.str "jan", Regex.str "feb",
        .cat (Regex.str "ma") (.cls false [('r', 'r'), ('y', 'y')]),
        Regex.str "apr",
        .cat (Regex.str "ju") (.cls false [('n', 'n'), ('l', 'l')]),
        Regex.str "aug", Regex.str "sep", Regex.str "oct",
        Regex.str "nov", Regex.str "dec"],
     .lit '/', Regex.rep 4 rDigit,
     .lit ':',
     Regex.first
       [.cat (.lit '2') (.cls false [('0', '3')]),
        .cat (.cls false [('0', '1')]) rDigit, rDigit],
     .lit ':',
     Regex.first [.cat (.cls false [('0', '5')]) rDigit, rDigit],
     .lit ':',
     Regex.first
       [.cat (.lit '6') (.cls false [('0', '1')]),
        .cat (.cls false [('0', '5')]) rDigit, rDigit],
     Regex.plus rSpace,
     Regex.all [.cls false [('+', '+'), ('-', '-')], rDigit, rDigit,
                .cls false [('0', '5')], rDigit],
     .lit ']'])

/-- Modelled from the spec: `TimeRE().pattern(fmt)` from the absent
`lars/strptime.py` derives a regex for a strftime-like format from the
fixed English locale table (§4.3(a)); an unsupported directive raises
`KeyError`, which `_generate_parse_fn` converts to a `ValueError`. Only the
directives the strptime evaluator supports are modelled. -/
def timeREPattern : List Char → Except String Regex
  | [] => pure .eps
  | '%' :: d :: t => do
      let frag ←
        match d with
        | 'Y' => pure (Regex.rep 4 rDigit)
        | 'm' => pure (Regex.first
            [.cat (.lit '1') (.cls false [('0', '2')]),
             .cat (.lit '0') (.cls false [('1', '9')]),
             .cls false [('1', '9')]])
        | 'd' => pure (Regex.first
            [.cat (.lit '3') (.cls false [('0', '1')]),
             .cat (.cls false [('1', '2')]) rDigit,
             .cat (.lit '0') (.cls false [('1', '9')]),
             .cls false [('1', '9')]])
        | 'H' => pure (Regex.first
            [.cat (.lit '2') (.cls false [('0', '3')]),
             .cat (.cls false [('0', '1')]) rDigit, rDigit])
        | 'M' => pure (Regex.first [.cat (.cls false [('0', '5')]) rDigit, rDigit])
        | 'S' => pure (Regex.first
            [.cat (.lit '6') (.cls false [('0', '1')]),
             .cat (.cls false [('0', '5')]) rDigit, rDigit])
        | 'z' => pure (Regex.all
            [.cls false [('+', '+'), ('-', '-')], rDigit, rDigit,
             .cls false [('0', '5')], rDigit])
        | _ => .error "Invalid time format spec"
      let rest ← timeREPattern t
      pure (.cat frag rest)
  | c :: t => do
      let rest ← timeREPattern t
      pure (.cat (.lit c) rest)

/-- The `apache._generate_parse_fn`: the `time` type gets either the
`TimeRE`-derived pattern (custom format) or the hard-coded `%t` pattern;
request-header fields named `req_referer`/`req_referrer` (any case) are
retyped as URL; everything else is looked up in `TYPES` (a `None` parser
becoming the identity function). Returns (name, regex fragment with the
name substituted, parser). -/
def _generate_parse_fn (data : Option (List Char)) (fieldType : String)
    (fieldName : Option (List Char)) :
    Except String (Option (List Char) × Regex × ParserKind) := do
  let gname := String.mk (pyStrOfName fieldName)
  if fieldType = "time" then
    if pyTruthy data then do
      let d := (match data with | some d => d | none => [])
      let inner ← timeREPattern d
      pure (fieldName, .group (some gname) inner, .timeFormatK d)
    else
      pure (fieldName, TIME_COMMON gname, .timeCommonK)
  else if fieldType = "string" &&
      (pyLower (pyStrOfName fieldName) = "req_referer".data ||
       pyLower (pyStrOfName fieldName) = "req_referrer".data) then
    pure (fieldName, parsers.URL gname, .urlK)
  else
    let entry : Option (ParserKind × (String → Regex)) :=
      match fieldType with
      | "address" => some (.addressK, parsers.ADDRESS)
      | "path" => some (.pathK, parsers.PATH)
      | "hostname" => some (.hostnameK, parsers.HOSTNAME)
      | "integer" => some (.integerK, parsers.INTEGER)
      | "method" => some (.identityK, parsers.METHOD)
      | "protocol" => some (.identityK, parsers.PROTOCOL)
      | "request" => some (.requestK, parsers.REQUEST)
      | "url" => some (.urlK, parsers.URL)
      | "url-stem" => some (.urlK, URL_STEM)
      | "url-query" => some (.urlK, URL_QUERY)
      | "string" => some (.stringApacheK, STRING)
      | "keepalive" => some (.identityK, KEEPALIVE)
      | _ => none
    match entry with
    | some (k, frag) => pure (fieldName, frag gname, k)
    | none => .error "unknown field type"

/-! ### The `FIELD_RE1`/`FIELD_RE2` token grammar

`FIELD_RE1` is `%(?:!?\d{3}(?:,\d{3})*)?[<>]?(?:\{[^}]*\})?[a-zA-Z]`; the
scanner below enumerates candidate consumptions in exactly the regex's
backtracking order (each optional piece greedily consumed first, the
comma-list longest first). -/

/-- Rests after consuming `0, 1, 2, ...` further `,\d{3}` groups. -/
def commaRests (s : List Char) : List (List Char) :=
  match s with
  | ',' :: d1 :: d2 :: d3 :: t =>
      if [d1, d2, d3].all isAsciiDigit then s :: commaRests t else [s]
  | _ => [s]

/-- Rests after the optional status filter `!?\d{3}(?:,\d{3})*`, greedy
alternatives first. -/
def statusFilterRests (s : List Char) : List (List Char) :=
  let withFilter :=
    match s with
    | '!' :: d1 :: d2 :: d3 :: t =>
        if [d1, d2, d3].all isAsciiDigit then (commaRests t).reverse else []
    | d1 :: d2 :: d3 :: t =>
        if [d1, d2, d3].all isAsciiDigit then (commaRests t).reverse else []
    | _ => []
  withFilter ++ [s]

/-- Rests after the optional `[<>]` modifier, greedy first. -/
def modRests (s : List Char) : List (List Char) :=
  match s with
  | '<' :: t => [t, s]
  | '>' :: t => [t, s]
  | _ => [s]

/-- Scan the body of a `{...}` payload up to the closing brace. -/
def scanBrace : List Char → Option (List Char × List Char)
  | [] => none
  | '\x7d' :: t => some ([], t)
  | c :: t => (scanBrace t).map (fun p => (c :: p.1, p.2))

/-- Alternatives for the optional `\{[^}]*\}` payload, greedy first:
(payload or none, rest). -/
def braceAlts (s : List Char) : List (Option (List Char) × List Char) :=
  match s with
  | '\x7b' :: t =>
      match scanBrace t with
      | some (payload, rest) => [(some payload, rest), (none, s)]
      | none => [(none, s)]
  | _ => [(none, s)]

/-- Try to read one whole `%` field token at the head of `s`
(the `FIELD_RE1` language): returns the payload, the suffix letter and the
rest. The payload/suffix pair is exactly what `FIELD_RE2` would re-extract
from the token, so the per-token regex is fused into the scanner. -/
def tryToken (s : List Char) :
    Option (Option (List Char) × Char × List Char) :=
  match s with
  | '%' :: t =>
      (statusFilterRests t).findSome? (fun r1 =>
        (modRests r1).findSome? (fun r2 =>
          (braceAlts r2).findSome? (fun pr =>
            match pr.2 with
            | c :: rest =>
                if isAsciiAlpha c then some (pr.1, c, rest) else none
            | [] => none)))
  | _ => none

/-- One `re.split(FIELD_RE1, ...)` piece list entry: a literal separator
or a recognized field token. -/
inductive Piece where
  | sep (s : List Char)
  | tok (payload : Option (List Char)) (suffix : Char)
deriving Repr, DecidableEq

/-- The `re.split` with the all-capturing `FIELD_RE1`: alternating separators
and tokens, starting and ending with a (possibly empty) separator. The
fuel (always supplied as length + 1) only discharges termination: a token
always consumes at least its `%` and suffix letter. -/
def splitFormatAux : Nat → List Char → List Piece
  | 0, s => [.sep s]
  | _, [] => [.sep []]
  | f + 1, s@(c :: t) =>
      match tryToken s with
      | some (payload, suffix, rest) =>
          .sep [] :: .tok payload suffix :: splitFormatAux f rest
      | none =>
          match splitFormatAux f t with
          | .sep p :: r => .sep (c :: p) :: r
          | r => .sep [c] :: r

def splitFormat (s : List Char) : List Piece :=
  splitFormatAux (s.length + 1) s

/-- The `apache._parse_log_field` on one extracted token: look the suffix up
in `FIELD_DEFS` (unknown suffixes raise), generate the name, and delegate
to `_generate_parse_fn`. -/
def _parse_log_field (payload : Option (List Char)) (suffix : Char) :
    Except String (Option (List Char) × Regex × ParserKind) := do
  match FIELD_DEFS suffix with
  | none => .error "Invalid format suffix"
  | some (tmpl, fieldType) => do
      let name ← _generate_name tmpl payload suffix
      _generate_parse_fn payload fieldType name

/-- A compiled Apache LogFormat: the ordered field names (`None` is
possible, see `_generate_name`), the whole-row regex, and the parser
list. -/
structure Compiled where
  fields : List (Option (List Char))
  pattern : Regex
  funcs : List ParserKind
deriving Repr

/-- A literal separator chunk: `re.escape` makes every character literal. -/
def escapeLit (s : List Char) : Regex :=
  s.foldr (fun c acc => .cat (.lit c) acc) .eps

/-- The `_parse_log_format` loop over the split pieces: escaped literal
separators and compiled field fragments are concatenated; a field name
already present raises the duplicate-name `ValueError`. -/
def plfAux : List Piece → List (Option (List Char)) → List Regex →
    List ParserKind →
    Except String (List (Option (List Char)) × List Regex × List ParserKind)
  | [], fs, rs, ks => pure (fs, rs, ks)
  | .sep s :: t, fs, rs, ks =>
      if s = [] then plfAux t fs rs ks
      else plfAux t fs (rs ++ [escapeLit s]) ks
  | .tok payload suffix :: t, fs, rs, ks => do
      let (name, pat, k) ← _parse_log_field payload suffix
      if fs.contains name then .error "Duplicate row field name"
      else plfAux t (fs ++ [name]) (rs ++ [pat]) (ks ++ [k])

/-- The `apache._parse_log_format`: split the LogFormat, compile every piece,
then build the row regex (compiled with `re.IGNORECASE`) and the row
namedtuple (whose own name validation can also raise). -/
def parseLogFormat (fmt : List Char) : Except String Compiled := do
  let (fs, rs, ks) ← plfAux (splitFormat fmt) [] [] []
  rowCheck (fs.map pyStrOfName)
  pure ⟨fs, Regex.all rs, ks⟩

end apache

/-! ## Per-line outcomes and the two iteration engines -/

/-- What one input line produces: a typed row, a recoverable warning
(carrying the 1-based line number), or a fatal error that aborts the
iteration (kind, 1-based line number). -/
inductive Outcome where
  | row (vs : List Value)
  | warning (msg : String) (lineNo : Nat)
  | fatal (kind : String) (lineNo : Nat)
deriving DecidableEq, Repr

def Outcome.isRow : Outcome → Bool
  | .row _ => true
  | _ => false

/-- The tuple `match.group(f1, f2, ...)` returns when called with at least
two field names: the captured text of every named field group (`none` for
a group that did not participate). With fewer than two arguments
`match.group` does not return a tuple; see `matchGroups`. -/
def extractGroups (names : List (Option (List Char))) (caps : Caps) :
    List (Option (List Char)) :=
  names.map (fun n => capLookup caps (String.mk (pyStrOfName n)))

/-- The result shape of `values = match.group(*self._row_type._fields)`:
a bare string (or `None`) when the row type has fewer than two fields, a
tuple of captures otherwise. -/
inductive Groups where
  | one (v : Option (List Char))
  | many (vs : List (Option (List Char)))
deriving DecidableEq, Repr

/-- The `match.group(*fields)` of apache.py:728 / iis.py:526: with no
field names the call is `match.group()`, returning the whole matched text
(group 0); with exactly one it returns that group's bare captured string;
only with two or more does it return the tuple of captures. -/
def matchGroups (names : List (Option (List Char))) (caps : Caps)
    (whole : List Char) : Groups :=
  match names with
  | [] => .one (some whole)
  | [n] => .one (capLookup caps (String.mk (pyStrOfName n)))
  | _ => .many (extractGroups names caps)

/-- The `[f(v) for (f, v) in zip(row_funcs, values)]` over a capture list:
`zip` truncates at the shorter side and the first `ValueError` aborts the
whole comprehension. A `None` entry would make the parser raise a
`TypeError` (not caught as a warning), signalled here as `ok none`. -/
def applyFuncs (ks : List ParserKind) (vs : List (Option (List Char))) :
    Except String (Option (List Value)) :=
  match ks, vs with
  | [], _ => pure (some [])
  | _, [] => pure (some [])
  | k :: ks, some v :: vs => do
      let x ← applyParser k v
      let rest ← applyFuncs ks vs
      pure (rest.map (x :: ·))
  | _ :: _, none :: _ => pure none

/-- The same comprehension over what `match.group` actually returned:
iterating a bare string hands `zip` its *characters*, so a single-field
engine pairs its one parser with the first character of the capture;
`zip(funcs, None)` raises `TypeError`. -/
def applyGroups (ks : List ParserKind) : Groups →
    Except String (Option (List Value))
  | .one none => pure none
  | .one (some s) => applyFuncs ks (s.map (fun c => some [c]))
  | .many vs => applyFuncs ks vs

namespace apache

/-- The body of `ApacheSource.__iter__` for one line (0-based `num`): strip
the line, `match` the row pattern (start-anchored only), extract the
values as `match.group` shapes them and parse; no match or a parser
`ValueError` degrade to a warning carrying line number `num + 1`. The
final arity check is the namedtuple constructor `self._row_type(*values)`
raising `TypeError` on a length mismatch. -/
def step (c : Compiled) (num : Nat) (line : List Char) : Outcome :=
  match rmatch true c.pattern (pyRstrip line) with
  | none => .warning "Line contains invalid data" (num + 1)
  | some (caps, p, _) =>
      match applyGroups c.funcs
          (matchGroups c.fields caps ((pyRstrip line).take p)) with
      | .error e => .warning e (num + 1)
      | .ok none => .fatal "TypeError" (num + 1)
      | .ok (some vs) =>
          if vs.length = c.fields.length then .row vs
          else .fatal "TypeError" (num + 1)

/-- The whole iteration: Apache line processing is stateless, so the run
maps `step` over the 1-based-enumerated lines; `count` is incremented
exactly on row outcomes. -/
def run (c : Compiled) (lines : List (List Char)) : List Outcome :=
  lines.enum.map (fun p => step c p.1 p.2)

/-- The `ApacheSource(source, log_format).count` after a full iteration. -/
def runCount (c : Compiled) (lines : List (List Char)) : Nat :=
  (run c lines).countP Outcome.isRow

/-- Construct the source and iterate: a compile error is raised by the
constructor before any line is read. -/
def sourceRun (fmt : List Char) (lines : List (List Char)) :
    Except String (List Outcome × Nat) := do
  let c ← parseLogFormat fmt
  pure (run c lines, runCount c lines)

end apache

/-! ## `lars.iis`: the W3C extended-format directive processor and engine -/

namespace iis

/-- The IIS error taxonomy: `IISDirectiveError` and its subclasses
`IISFieldsError`/`IISVersionError` (all fatal), plus uncaught Python
errors (`ValueError`/`KeyError` escaping a directive handler). -/
inductive Err where
  | directiveE (msg : String)
  | fieldsE (msg : String)
  | versionE (msg : String)
  | valueE (msg : String)
deriving DecidableEq, Repr

def Err.kind : Err → String
  | .directiveE _ => "DirectiveError"
  | .fieldsE _ => "FieldsError"
  | .versionE _ => "VersionError"
  | .valueE _ => "ValueError"

/-- The `^#\s*Name\s*:\s*` (every directive regex starts this way). -/
def directiveHead (word : String) : Regex :=
  Regex.all [.bol, .lit '#', .star rSpace, Regex.str word, .star rSpace,
             .lit ':', .star rSpace]

/-- The `VERSION_RE`: `^#\s*Version\s*:\s*(?P<text>\d+\.\d+)\s*$`. -/
def VERSION_RE : Regex :=
  Regex.all [directiveHead "Version",
    .group (some "text") (Regex.all [Regex.plus rDigit, .lit '.', Regex.plus rDigit]),
    .star rSpace, .eol]

/-- The shared date-time tail of `START_DATE_RE`/`END_DATE_RE`/`DATE_RE`:
`(?P<date>\d{4}-\d{2}-\d{2})\s*(?P<time>\d{2}:\d{2}:\d{2})\s*$`. -/
def dateTail : Regex :=
  Regex.all
    [.group (some "date") (Regex.all
       [Regex.rep 4 rDigit, .lit '-', Regex.rep 2 rDigit, .lit '-',
        Regex.rep 2 rDigit]),
     .star rSpace,
     .group (some "time") (Regex.all
       [Regex.rep 2 rDigit, .lit ':', Regex.rep 2 rDigit, .lit ':',
        Regex.rep 2 rDigit]),
     .star rSpace, .eol]

def START_DATE_RE : Regex := .cat (directiveHead "Start-Date") dateTail
def END_DATE_RE : Regex := .cat (directiveHead "End-Date") dateTail
def DATE_RE : Regex := .cat (directiveHead "Date") dateTail

/-- The `SOFTWARE_RE`: `^#\s*Software\s*:\s*(?P<text>.*)$`. -/
def SOFTWARE_RE : Regex :=
  Regex.all [directiveHead "Software", .group (some "text") (.star .dot), .eol]

/-- The `REMARK_RE`: `^#\s*Remark\s*:\s*(?P<text>.*)$`. -/
def REMARK_RE : Regex :=
  Regex.all [directiveHead "Remark", .group (some "text") (.star .dot), .eol]

/-- The `FIELDS_RE`: `^#\s*Fields\s*:\s*(?P<text>.*)$`. -/
def FIELDS_RE : Regex :=
  Regex.all [directiveHead "Fields", .group (some "text") (.star .dot), .eol]

/-- The `FIELD_RE`:
`(?:(?P<prefix>[rc]s?|s[rc]?|x)(?:-|(?P<header>\()))?(?P<identifier>[^ ]+)(?(header)\))`. -/
def FIELD_RE : Regex :=
  Regex.all
    [Regex.opt (.cat
       (.group (some "prefix") (Regex.first
         [.cat (.cls false [('r', 'r'), ('c', 'c')]) (Regex.opt (.lit 's')),
          .cat (.lit 's') (Regex.opt (.cls false [('r', 'r'), ('c', 'c')])),
          .lit 'x']))
       (.alt (.lit '-') (.group (some "header") (.lit '(')))),
     .group (some "identifier") (Regex.plus (.cls true [(' ', ' ')])),
     .cond "header" (.lit ')')]

/-- The `FIELD_TYPES`: identifier to W3C data-type tag (unknown identifiers
default to `string` at the lookup site). -/
def FIELD_TYPES (ident : List Char) : Option String :=
  if ident = "bytes".data then some "integer"
  else if ident = "cached".data then some "integer"
  else if ident = "comment".data then some "text"
  else if ident = "count".data then some "integer"
  else if ident = "date".data then some "date_iso"
  else if ident = "dns".data then some "hostname"
  else if ident = "interval".data then some "integer"
  else if ident = "ip".data then some "address_port"
  else if ident = "method".data then some "hostname"
  else if ident = "status".data then some "integer"
  else if ident = "time-from".data then some "time_iso"
  else if ident = "time-taken".data then some "fixed"
  else if ident = "time".data then some "time_iso"
  else if ident = "time-to".data then some "time_iso"
  else if ident = "uri-query".data then some "url"
  else if ident = "uri-stem".data then some "url"
  else if ident = "uri".data then some "url"
  else if ident = "computername".data then some "string"
  else if ident = "host".data then some "hostname"
  else if ident = "port".data then some "integer"
  else if ident = "sitename".data then some "string"
  else if ident = "substatus".data then some "integer"
  else if ident = "username".data then some "string"
  else if ident = "version".data then some "string"
  else if ident = "win32-status".data then some "integer"
  else none

/-- The IIS quoted-or-encoded string fragment
`(?P<name>"([^"]|"")*"|[^"\s]\S*|-)`. -/
def STRING (name : String) : Regex :=
  .group (some name) (Regex.first
    [Regex.all [.lit '"',
       .star (.group none (.alt (.cls true [('"', '"')])
         (.cat (.lit '"') (.lit '"')))),
       .lit '"'],
     .cat (.cls true (('"', '"') :: sItems)) (.star rNonSpace),
     .lit '-'])

/-- The `IISSource.TYPES`: data-type tag to (parser, regex fragment); a tag
with no entry (`text`) raises `KeyError` at the lookup site. -/
def TYPES (tag : String) : Option (ParserKind × (String → Regex)) :=
  match tag with
  | "integer" => some (.integerK, parsers.INTEGER)
  | "fixed" => some (.fixedK, parsers.FIXED)
  | "date_iso" => some (.dateIsoK, parsers.DATE_ISO)
  | "time_iso" => some (.timeIsoK, parsers.TIME_ISO)
  | "url" => some (.urlK, parsers.URL)
  | "string" => some (.stringIISK, STRING)
  | "hostname" => some (.hostnameK, parsers.HOSTNAME)
  | "address_port" => some (.addressPortK, parsers.ADDRESS_PORT)
  | _ => none

/-- The `IISSource` instance attributes that iteration mutates. -/
structure State where
  version : Option (List Char)
  software : Option (List Char)
  remark : Option (List Char)
  start : Option Value
  finish : Option Value
  date : Option Value
  fields : List (List Char)
  rowPattern : Option Regex
  rowFields : List (List Char)
  rowFuncs : List ParserKind
deriving Repr

/-- The `IISSource.__init__`: all metadata empty. -/
def initState : State :=
  ⟨none, none, none, none, none, none, [], none, [], []⟩

/-- The name/type resolution of one `#Fields` token (the head of the
`_process_fields` loop body): header tokens (`prefix(ident)`) are
`string`-typed unless the identifier is `Referer`/`Referrer` (then `url`);
prefixed and bare tokens look the identifier up in `FIELD_TYPES` with
default `string`. Returns (original name, python name, type tag). -/
def fieldSpec (pfx hdr ident : List Char) :
    Except Err (List Char × List Char × String) := do
  if hdr ≠ [] then
    let orig := pfx ++ '(' :: ident ++ [')']
    match sanitize_name (pfx ++ '_' :: ident) with
    | .error e => .error (.valueE e)
    | .ok python =>
        if pyLower ident = "referer".data || pyLower ident = "referrer".data then
          pure (orig, python, "url")
        else pure (orig, python, "string")
  else if pfx ≠ [] then
    let orig := pfx ++ '-' :: ident
    match sanitize_name (pfx ++ '_' :: ident) with
    | .error e => .error (.valueE e)
    | .ok python =>
        pure (orig, python, (FIELD_TYPES ident).getD "string")
  else
    match sanitize_name ident with
    | .error e => .error (.valueE e)
    | .ok python =>
        pure (ident, python, (FIELD_TYPES ident).getD "string")

/-- The `_process_fields` loop over the extracted tokens: accumulates the
`\s+`-joined pattern, the original-name list (raising `FieldsError` on a
duplicate before appending) and the tuple names and parsers. -/
def processTokens :
    List (List Char × List Char × List Char) → List (List Char) →
    List Regex → List (List Char) → List ParserKind →
    Except Err (List (List Char) × List Regex × List (List Char) × List ParserKind)
  | [], origs, pats, names, funcs => pure (origs, pats, names, funcs)
  | (pfx, hdr, ident) :: ts, origs, pats, names, funcs => do
      let (orig, python, tag) ← fieldSpec pfx hdr ident
      match TYPES tag with
      | none => .error (.valueE "KeyError")
      | some (k, frag) =>
          let pats := if pats = [] then [frag (String.mk python)]
                      else pats ++ [Regex.plus rSpace, frag (String.mk python)]
          if origs.contains orig then
            .error (.fieldsE "Duplicate field name")
          else
            processTokens ts (origs ++ [orig]) pats (names ++ [python])
              (funcs ++ [k])

/-- The findall result as (prefix, header, identifier) capture triples,
with `''` for a group that did not participate. -/
def fieldTokens (text : List Char) :
    List (List Char × List Char × List Char) :=
  (rfindall false FIELD_RE text).map (fun caps =>
    ((capLookup caps "prefix").getD [],
     (capLookup caps "header").getD [],
     (capLookup caps "identifier").getD []))

/-- The `IISSource._process_fields`: a second `#Fields` directive raises
`FieldsError`; otherwise extract the tokens, compile them, and build the
anchored row pattern (`'^' + pattern + '$'`) and the row namedtuple. -/
def processFields (st : State) (text : List Char) : Except Err State := do
  if st.fields ≠ [] then .error (.fieldsE "Second #Fields directive found")
  else do
    let (origs, pats, names, funcs) ← processTokens (fieldTokens text) [] [] [] []
    match rowCheck names with
    | .error e => .error (.valueE e)
    | .ok _ =>
        pure { st with
          fields := origs,
          rowPattern := some (Regex.all ([Regex.bol] ++ pats ++ [Regex.eol])),
          rowFields := names,
          rowFuncs := funcs }

/-- The fixed-priority directive table of `_process_directive`, with the
source's `'Remar'` tag for the Remark regex reproduced verbatim. -/
def directiveTable : List (String × Regex) :=
  [("Version", VERSION_RE), ("Software", SOFTWARE_RE), ("Remar", REMARK_RE),
   ("Fields", FIELDS_RE), ("Start-Date", START_DATE_RE),
   ("End-Date", END_DATE_RE), ("Date", DATE_RE)]

/-- The `datetime` payload of the date directives:
`dt.datetime('%s %s' % (date, time), '%Y-%m-%d %H:%M:%S')`. -/
def directiveDatetime (caps : Caps) : Except Err Value :=
  match dtDatetime ((capLookup caps "date").getD [] ++ ' ' ::
      (capLookup caps "time").getD []) with
  | .ok v => pure v
  | .error e => .error (.valueE e)

/-- The `IISSource._process_directive`: try the directive regexes in fixed
priority order (first match wins, no match is a `DirectiveError`), then
dispatch on the matched tag and mutate the corresponding attribute.
Because the table tags the Remark regex `'Remar'`, no dispatch arm fires
for a Remark line. -/
def processDirective (st : State) (line : List Char) : Except Err State := do
  match directiveTable.findSome? (fun p =>
      (rmatch true p.2 line).map (fun m => (p.1, m.1))) with
  | none => .error (.directiveE "Unrecognized directive")
  | some (tag, caps) =>
      if tag = "Version" then
        if st.version ≠ none then
          .error (.versionE "Found a second #Version directive")
        else
          let v := (capLookup caps "text").getD []
          if v ≠ "1.0".data then
            .error (.versionE "Unknown IIS log version")
          else pure { st with version := some v }
      else if tag = "Software" then
        pure { st with software := some ((capLookup caps "text").getD []) }
      else if tag = "Remark" then
        pure { st with remark := some ((capLookup caps "text").getD []) }
      else if tag = "Fields" then
        processFields st ((capLookup caps "text").getD [])
      else if tag = "Start-Date" then do
        let v ← directiveDatetime caps
        pure { st with start := some v }
      else if tag = "End-Date" then do
        let v ← directiveDatetime caps
        pure { st with finish := some v }
      else if tag = "Date" then do
        let v ← directiveDatetime caps
        pure { st with date := some v }
      else pure st

/-- The body of `IISSource.__iter__` for one line (0-based `num`):
`#`-lines go to the directive processor (whose errors are fatal); a data
line before `#Version` or `#Fields` is fatal; otherwise match the anchored
row pattern and parse, degrading mismatches and parser `ValueError`s to
warnings with line number `num + 1`. -/
def step (st : State) (num : Nat) (line : List Char) :
    State × Option Outcome :=
  if line.head? = some '#' then
    match processDirective st (pyRstrip line) with
    | .ok st' => (st', none)
    | .error e => (st, some (.fatal e.kind (num + 1)))
  else if st.version = none then
    (st, some (.fatal "VersionError" (num + 1)))
  else if st.fields = [] then
    (st, some (.fatal "FieldsError" (num + 1)))
  else
    match st.rowPattern with
    | none => (st, some (.fatal "InternalError" (num + 1)))
    | some pat =>
        match rmatch false pat (pyRstrip line) with
        | none => (st, some (.warning "Line contains invalid data" (num + 1)))
        | some (caps, p, _) =>
            match applyGroups st.rowFuncs
                (matchGroups (st.rowFields.map some) caps
                  ((pyRstrip line).take p)) with
            | .error e => (st, some (.warning e (num + 1)))
            | .ok none => (st, some (.fatal "TypeError" (num + 1)))
            | .ok (some vs) =>
                if vs.length = st.rowFields.length then (st, some (.row vs))
                else (st, some (.fatal "TypeError" (num + 1)))

/-- Iterate the source: a fatal outcome is the last one (the raised error
aborts the generator); the final state is `none` when that happened. -/
def runAux : State → Nat → List (List Char) → List Outcome × Option State
  | st, _, [] => ([], some st)
  | st, num, l :: ls =>
      match step st num l with
      | (st', none) => runAux st' (num + 1) ls
      | (_, some (.fatal k n)) => ([.fatal k n], none)
      | (st', some o) =>
          let (outs, fin) := runAux st' (num + 1) ls
          (o :: outs, fin)

def run (lines : List (List Char)) : List Outcome × Option State :=
  runAux initState 0 lines

/-- The `IISSource.count` over a run: incremented exactly on row outcomes. -/
def runCount (lines : List (List Char)) : Nat :=
  (run lines).1.countP Outcome.isRow

end iis

/-! ## Concrete test vectors used by the claims -/

/-- The spec's reference Common Log Format line. -/
def c1line : List Char :=
  "64.242.88.10 - - [07/Mar/2004:16:56:39 -0800] \"GET /x HTTP/1.1\" 200 8545".data

/-- The `urlparse('/x')`. -/
def c1url : Url := ⟨[], [], "/x".data, [], [], []⟩

/-- The row the reference line must produce. -/
def c1row : List Value :=
  [.ipv4 64 242 88 10 none, .null, .null,
   .dtV ⟨2004, 3, 8, 0, 56, 39, 0, none⟩,
   .requestV ⟨"GET".data, some c1url, "HTTP/1.1".data⟩,
   .int 200, .int 8545]

/-- The expected UTC-normalized naive timestamp of the time cross-check. -/
def c3stamp : DateTime := ⟨2004, 3, 8, 0, 56, 39, 0, none⟩

/-- The compiled Common Log Format. -/
def commonCompiled : apache.Compiled :=
  (apache.parseLogFormat apache.COMMON).toOption.getD ⟨[], .eps, []⟩

/-- The reference line with trailing extra text appended. -/
def c6line : List Char := c1line ++ " EXTRA".data

/-- The reference line with the impossible calendar date 31 April: the
`%t` regex admits it but `DateTime` construction raises `ValueError`. -/
def c2badline : List Char :=
  "64.242.88.10 - - [31/Apr/2004:16:56:39 -0800] \"GET /x HTTP/1.1\" 200 8545".data

/-- The compiled single-field format `%h`. -/
def singleHostCompiled : apache.Compiled :=
  (apache.parseLogFormat "%h".data).toOption.getD ⟨[], .eps, []⟩

/-- A small IIS header (version and a two-integer-field `#Fields`). -/
def iisHeader : List (List Char) :=
  ["#Version: 1.0".data, "#Fields: sc-status sc-bytes".data]

/-- The IIS state after processing `iisHeader`. -/
def iisReady : iis.State :=
  (iis.runAux iis.initState 0 iisHeader).2.getD iis.initState

/-! # Theorems -/

/-- C1: with the default Apache COMMON format, iterating a source whose
single line is the reference line yields exactly one Row whose fields are,
in order: remote_host = the IPv4 address 64.242.88.10, ident = None,
remote_user = None, time = the timezone-naive UTC timestamp
2004-03-08 00:56:39, request = the parsed triple (GET, /x, HTTP/1.1),
status = 200, size = 8545; afterwards the success counter equals 1. -/
theorem C1_common_line_extraction :
    apache.sourceRun apache.COMMON [c1line] = .ok ([.row c1row], 1) := by
  rfl

/-- C3: the custom-format time parser built from `%Y-%m-%dT%H:%M:%S%z`
applied to `2004-03-08T00:56:39+0000` and the hard-coded default `%t`
parser applied to `[07/Mar/2004:16:56:39 -0800]` return equal results: the
timezone-naive, UTC-normalized timestamp 2004-03-08 00:56:39. -/
theorem C3_time_cross_check :
    time_parse_format "2004-03-08T00:56:39+0000".data
        "%Y-%m-%dT%H:%M:%S%z".data = .ok c3stamp ∧
    time_parse_common "[07/Mar/2004:16:56:39 -0800]".data = .ok c3stamp := by
  exact ⟨rfl, rfl⟩

/-- C9 (code bug): processing `#Remark: foo` is recognized by the
directive matcher (no `DirectiveError` is raised) and produces no row, but
because the dispatch table tags the Remark regex `'Remar'` while the
dispatch compares against `'Remark'`, the state — including the `remark`
attribute the class documents as "the remarks recorded in the `#Remark`
directive" — is returned entirely unchanged instead of having `remark` set
to `foo`. -/
theorem C9_remark_not_recorded :
    iis.processDirective iis.initState "#Remark: foo".data =
        .ok iis.initState ∧
    iis.initState.remark = none := by
  exact ⟨rfl, rfl⟩

/-- C10: every value-typed field parser maps `-` to `None` without
raising: the request, URL, path, integer, fixed-point, date, time,
hostname, and address parsers of the shared parsers module, and both the
Apache and the IIS string parsers. -/
theorem C10_dash_is_none :
    parsers.request_parse "-".data = .ok .null ∧
    parsers.url_parse "-".data = .ok .null ∧
    parsers.path_parse "-".data = .ok .null ∧
    parsers.int_parse "-".data = .ok .null ∧
    parsers.fixed_parse "-".data = .ok .null ∧
    parsers.date_parse "-".data = .ok .null ∧
    parsers.time_parse "-".data = .ok .null ∧
    parsers.hostname_parse "-".data = .ok .null ∧
    parsers.address_parse "-".data = .ok .null ∧
    apache.string_parse "-".data = .ok .null ∧
    iis.string_parse "-".data = .ok .null := by
  refine ⟨rfl, rfl, rfl, rfl, rfl, rfl, rfl, rfl, rfl, rfl, rfl⟩

/-- C6 is refuted at this input: the Apache engine compiles its row
pattern without an end anchor and matches with `re.match`, so the
reference line with ` EXTRA` appended still yields a Row (and increments
the counter) instead of degrading to a Warning. -/
theorem C6_counterexample_apache_trailing :
    apache.sourceRun apache.COMMON [c6line] = .ok ([.row c1row], 1) := by
  rfl

/-- C7 is refuted at this input: the output-header spec `%{Referer}o`
resolves to the field name `resp_Referer`, which the Apache special case
(matching only `req_referer`/`req_referrer`) does not catch, so the field
is compiled with the opaque-string parser, not the URL parser. -/
theorem C7_counterexample_resp_referer :
    (apache.parseLogFormat "%\x7bReferer\x7do".data).map
        (fun c => (c.fields, c.funcs)) =
      .ok ([some "resp_Referer".data], [.stringApacheK]) ∧
    ParserKind.stringApacheK ≠ ParserKind.urlK := by
  exact ⟨rfl, by decide⟩

/-- The Apache compile loop preserves distinctness of field names: the
membership check before each append rejects any repeat. -/
theorem plfAux_nodup : ∀ (pieces : List apache.Piece) fs rs ks res,
    apache.plfAux pieces fs rs ks = .ok res → fs.Nodup → res.1.Nodup := by
  intro pieces
  induction pieces with
  | nil =>
      intro fs rs ks res h hn
      simp only [apache.plfAux] at h
      cases h
      exact hn
  | cons piece t ih =>
      intro fs rs ks res h hn
      cases piece with
      | sep s =>
          simp only [apache.plfAux] at h
          split at h
          · exact ih _ _ _ _ h hn
          · exact ih _ _ _ _ h hn
      | tok payload suffix =>
          simp only [apache.plfAux] at h
          cases hf : apache._parse_log_field payload suffix with
          | error e =>
              rw [hf] at h
              have h' : (Except.error e : Except String
                  (List (Option (List Char)) × List Regex × List ParserKind)) =
                  Except.ok res := h
              exact Except.noConfusion h'
          | ok v =>
              obtain ⟨name, pat, k⟩ := v
              rw [hf] at h
              simp only [Except.bind, bind] at h
              split at h
              · exact absurd h (by simp)
              · refine ih _ _ _ _ h ?_
                rename_i hmem
                have hm : ¬ name ∈ fs := by
                  intro hx
                  exact hmem (by simpa using hx)
                rw [List.nodup_append]
                refine ⟨hn, List.nodup_singleton _, ?_⟩
                intro a ha hb
                simp at hb
                exact hm (hb ▸ ha)

/-- The IIS `#Fields` token loop preserves distinctness of the original
field names in the same way. -/
theorem processTokens_nodup : ∀ toks origs pats names funcs res,
    iis.processTokens toks origs pats names funcs = .ok res →
    origs.Nodup → res.1.Nodup := by
  intro toks
  induction toks with
  | nil =>
      intro origs pats names funcs res h hn
      simp only [iis.processTokens] at h
      cases h
      exact hn
  | cons tk t ih =>
      intro origs pats names funcs res h hn
      obtain ⟨pfx, hdr, ident⟩ := tk
      simp only [iis.processTokens] at h
      cases hf : iis.fieldSpec pfx hdr ident with
      | error e =>
          rw [hf] at h
          have h' : (Except.error e : Except iis.Err
              (List (List Char) × List Regex × List (List Char) ×
                List ParserKind)) = Except.ok res := h
          exact Except.noConfusion h'
      | ok v =>
          obtain ⟨orig, python, tag⟩ := v
          rw [hf] at h
          simp only [Except.bind, bind] at h
          cases ht : iis.TYPES tag with
          | none =>
              rw [ht] at h
              exact absurd h (by simp)
          | some pk =>
              obtain ⟨k, frag⟩ := pk
              rw [ht] at h
              by_cases hc : origs.contains orig = true
              · simp only [hc, if_true] at h
                exact Except.noConfusion h
              · simp only [hc, if_false] at h
                refine ih _ _ _ _ _ h ?_
                have hm : ¬ orig ∈ origs := by
                  intro hx
                  exact hc (by simpa using hx)
                rw [List.nodup_append]
                refine ⟨hn, List.nodup_singleton _, ?_⟩
                intro a ha hb
                simp at hb
                exact hm (hb ▸ ha)

/-- A LogFormat that fails to compile makes the source constructor raise:
iteration never starts. -/
theorem sourceRun_of_compile_error (fmt : List Char) (e : String)
    (lines : List (List Char)) (h : apache.parseLogFormat fmt = .error e) :
    apache.sourceRun fmt lines = .error e := by
  simp [apache.sourceRun, h, Except.bind, bind]

/-- Directive lines never yield rows, so a run that aborts inside an
all-directive prefix yields no rows at all, whatever follows. -/
theorem iis_abort_in_directives_no_rows :
    ∀ (pre : List (List Char)) (st : iis.State) (n : Nat)
      (rest : List (List Char)),
      (∀ l ∈ pre, l.head? = some '#') →
      (iis.runAux st n pre).2 = none →
      ((iis.runAux st n (pre ++ rest)).1.countP Outcome.isRow) = 0 := by
  intro pre
  induction pre with
  | nil =>
      intro st n rest _ habort
      simp [iis.runAux] at habort
  | cons l t ih =>
      intro st n rest hall habort
      have hl : l.head? = some '#' := hall l (by simp)
      have hstep : iis.step st n l =
          (match iis.processDirective st (pyRstrip l) with
           | .ok st' => (st', none)
           | .error e => (st, some (.fatal e.kind (n + 1)))) := by
        simp [iis.step, hl]
      cases hd : iis.processDirective st (pyRstrip l) with
      | ok st' =>
          have hs : iis.step st n l = (st', none) := by rw [hstep, hd]
          have h1 : iis.runAux st n ((l :: t) ++ rest) =
              iis.runAux st' (n + 1) (t ++ rest) := by
            simp only [List.cons_append, iis.runAux, hs]
            rfl
          have h2 : iis.runAux st n (l :: t) = iis.runAux st' (n + 1) t := by
            simp only [iis.runAux, hs]
          rw [h1]
          exact ih st' (n + 1) rest (fun x hx => hall x (by simp [hx]))
            (by rw [h2] at habort; exact habort)
      | error e =>
          have hs : iis.step st n l = (st, some (.fatal e.kind (n + 1))) := by
            rw [hstep, hd]
          have h1 : iis.runAux st n ((l :: t) ++ rest) =
              ([.fatal e.kind (n + 1)], none) := by
            simp only [List.cons_append, iis.runAux, hs]
          rw [h1]
          simp [Outcome.isRow]

/-- C4: a format in which two field tokens resolve to the same output
name never compiles: a successfully compiled Apache format has pairwise
distinct field names (so `%b %B` in one format raises the duplicate-name
`ValueError`, shown concretely), and a compile error aborts the source
constructor before any line is read; likewise a successful IIS `#Fields`
token compilation has pairwise distinct original names, a repeated field
raises `FieldsError` (shown concretely), and an IIS stream whose repeated
`#Fields` precedes all data lines yields no Row at all. -/
theorem C4_duplicate_names_fatal :
    (∀ fmt c, apache.parseLogFormat fmt = .ok c → c.fields.Nodup) ∧
    apache.parseLogFormat "%b %B".data = .error "Duplicate row field name" ∧
    (∀ fmt e lines, apache.parseLogFormat fmt = .error e →
       apache.sourceRun fmt lines = .error e) ∧
    (∀ toks res, iis.processTokens toks [] [] [] [] = .ok res →
       res.1.Nodup) ∧
    iis.processFields iis.initState "sc-status sc-status".data =
      .error (.fieldsE "Duplicate field name") ∧
    (iis.run ["#Version: 1.0".data, "#Fields: sc-status sc-status".data,
              "200".data]).1 = [.fatal "FieldsError" 2] := by
  refine ⟨?_, by rfl, ?_, ?_, by rfl, by rfl⟩
  · intro fmt c h
    simp only [apache.parseLogFormat] at h
    cases hp : apache.plfAux (apache.splitFormat fmt) [] [] [] with
    | error e => rw [hp] at h; exact absurd h (by simp [Except.bind, bind])
    | ok v =>
        obtain ⟨fs, rs, ks⟩ := v
        rw [hp] at h
        simp only [Except.bind, bind] at h
        cases hr : rowCheck (fs.map pyStrOfName) with
        | error e => rw [hr] at h; exact absurd h (by simp)
        | ok u =>
            rw [hr] at h
            simp only [pure, Except.pure] at h
            cases h
            exact plfAux_nodup _ _ _ _ _ hp List.nodup_nil
  · exact fun fmt e lines h => sourceRun_of_compile_error fmt e lines h
  · exact fun toks res h => processTokens_nodup _ _ _ _ _ _ h List.nodup_nil

/-- C4 witness: the COMMON format compiles and its field names are
pairwise distinct. -/
theorem C4_witness :
    apache.parseLogFormat apache.COMMON = .ok commonCompiled ∧
    commonCompiled.fields.Nodup :=
  ⟨rfl, C4_duplicate_names_fatal.1 apache.COMMON commonCompiled rfl⟩

/-- C5: an IIS data line reached with no `#Version` recorded is a fatal
`VersionError`; `_process_fields` with fields already established raises
the fatal second-`#Fields` `FieldsError`; two concrete streams show each
error with no Row yielded before it; and a run that aborts inside its
directive header yields no Row at all. -/
theorem C5_version_fields_fatal :
    (∀ (st : iis.State) num line, line.head? ≠ some '#' →
       st.version = none →
       iis.step st num line = (st, some (.fatal "VersionError" (num + 1)))) ∧
    (∀ (st : iis.State) text, st.fields ≠ [] →
       iis.processFields st text =
         .error (.fieldsE "Second #Fields directive found")) ∧
    (iis.run ["200 300".data]).1 = [.fatal "VersionError" 1] ∧
    (iis.run (iisHeader ++ ["#Fields: sc-status sc-bytes".data,
        "200 300".data])).1 = [.fatal "FieldsError" 3] ∧
    (∀ pre (st : iis.State) n rest, (∀ l ∈ pre, l.head? = some '#') →
       (iis.runAux st n pre).2 = none →
       ((iis.runAux st n (pre ++ rest)).1.countP Outcome.isRow) = 0) := by
  refine ⟨?_, ?_, by rfl, by rfl, iis_abort_in_directives_no_rows⟩
  · intro st num line h1 h2
    simp [iis.step, h1, h2]
  · intro st text h
    simp [iis.processFields, h]

/-- C5 witness: the step-level and fields-level facts instantiated: a bare
data line in the initial state, and a state with one field recorded. -/
theorem C5_witness :
    ("200".data.head? ≠ some '#') ∧ (iis.initState.version = none) ∧
    iis.step iis.initState 0 "200".data =
      (iis.initState, some (.fatal "VersionError" 1)) ∧
    iisReady.fields ≠ [] ∧
    iis.processFields iisReady "x".data =
      .error (.fieldsE "Second #Fields directive found") ∧
    (∀ l ∈ iisHeader ++ ["#Fields: a".data], l.head? = some '#') ∧
    (iis.runAux iis.initState 0 (iisHeader ++ ["#Fields: a".data])).2 = none ∧
    ((iis.runAux iis.initState 0
        ((iisHeader ++ ["#Fields: a".data]) ++ ["200 300".data])).1.countP
          Outcome.isRow) = 0 := by
  refine ⟨by decide, rfl, C5_version_fields_fatal.1 iis.initState 0 "200".data
    (by decide) rfl, by decide, C5_version_fields_fatal.2.1 iisReady "x".data
    (by decide), by decide, by rfl, C5_version_fields_fatal.2.2.2.2
    (iisHeader ++ ["#Fields: a".data]) iis.initState 0 ["200 300".data]
    (by decide) (by rfl)⟩

/-- Each line's outcome in an Apache run is its own line's step, at its
own index. -/
theorem apache_run_getElem (c : apache.Compiled) (lines : List (List Char))
    (i : Nat) :
    (apache.run c lines)[i]? = (lines[i]?).map (fun l => apache.step c i l) := by
  simp [apache.run, List.getElem?_map, List.getElem?_enum]
  rfl

/-- Removing one element that does not satisfy the predicate leaves the
count unchanged. -/
theorem countP_eraseIdx_of_not {α : Type} (p : α → Bool) :
    ∀ (l : List α) (i : Nat) (a : α), l[i]? = some a → p a = false →
      l.countP p = (l.eraseIdx i).countP p := by
  intro l
  induction l with
  | nil => intro i a h _; simp at h
  | cons x t ih =>
      intro i a h hp
      cases i with
      | zero =>
          simp at h
          subst h
          simp [List.countP_cons, hp, List.eraseIdx]
      | succ j =>
          simp at h
          simp [List.countP_cons, List.eraseIdx, ih j a h hp]

set_option maxRecDepth 4000 in
/-- C2 is refuted at this input: under the single-field format `%h` the
line `a..b` matches, its field's captured substring is `a..b`, and the
hostname parser raises on that substring — yet the engine yields a Row
and counts it, because `match.group('remote_host')` returns the bare
string and `zip` pairs the parser with its first character `a` only
(apache.py:728). -/
theorem C2_counterexample_single_field :
    parsers.hostname_parse "a..b".data = .error "DNS label is invalid" ∧
    (rmatch true singleHostCompiled.pattern (pyRstrip "a..b".data)).map
        (fun r => capLookup r.1 "remote_host") = some (some "a..b".data) ∧
    apache.sourceRun "%h".data ["a..b".data] =
      .ok ([.row [.host "a".data]], 1) := by
  exact ⟨rfl, rfl, rfl⟩

/-- C2 (amended): in both engines a line that fails to match the compiled
row regex produces exactly one Warning carrying the 1-based line number,
no Row (the success counter does not count it), and iteration proceeds:
every other line's outcome is its own step (Apache), and the IIS state
passes through unchanged. The same holds when a matching line has a field
parser raise a `ValueError`-equivalent on its captured substring,
provided the row type has at least two fields; with exactly one field
`match.group` returns the bare captured string and `zip` hands the parser
its first character instead, so a parser failure on the full substring
need not degrade the line. -/
theorem C2_amended_failed_line_warns :
    (∀ (c : apache.Compiled) (lines : List (List Char)) (i : Nat)
       (line : List Char), lines[i]? = some line →
       (rmatch true c.pattern (pyRstrip line) = none ∨
        (∃ caps p rest e,
          rmatch true c.pattern (pyRstrip line) = some (caps, p, rest) ∧
          2 ≤ c.fields.length ∧
          applyFuncs c.funcs (extractGroups c.fields caps) = .error e)) →
       (∃ msg, (apache.run c lines)[i]? = some (.warning msg (i + 1))) ∧
       apache.runCount c lines =
         ((apache.run c lines).eraseIdx i).countP Outcome.isRow ∧
       (∀ j, (apache.run c lines)[j]? =
          (lines[j]?).map (fun l => apache.step c j l))) ∧
    (∀ (st : iis.State) (pat : Regex) (num : Nat) (line : List Char)
       (ls : List (List Char)),
       line.head? ≠ some '#' → st.version ≠ none → st.fields ≠ [] →
       st.rowPattern = some pat →
       (rmatch false pat (pyRstrip line) = none ∨
        (∃ caps p rest e,
          rmatch false pat (pyRstrip line) = some (caps, p, rest) ∧
          2 ≤ st.rowFields.length ∧
          applyFuncs st.rowFuncs
            (extractGroups (st.rowFields.map some) caps) = .error e)) →
       ∃ msg, iis.step st num line = (st, some (.warning msg (num + 1))) ∧
         iis.runAux st num (line :: ls) =
           (.warning msg (num + 1) :: (iis.runAux st (num + 1) ls).1,
            (iis.runAux st (num + 1) ls).2)) := by
  constructor
  · intro c lines i line hline hfail
    have hstep : ∃ msg, apache.step c i line = .warning msg (i + 1) := by
      rcases hfail with hnone | ⟨caps, p, rest, e, hm, hlen, he⟩
      · exact ⟨"Line contains invalid data", by simp [apache.step, hnone]⟩
      · obtain ⟨a, b, t, hft⟩ : ∃ a b t, c.fields = a :: b :: t := by
          rcases hf : c.fields with _ | ⟨a, _ | ⟨b, t⟩⟩
          · rw [hf] at hlen; simp at hlen
          · rw [hf] at hlen; simp at hlen
          · exact ⟨a, b, t, rfl⟩
        rw [hft] at he
        exact ⟨e, by simp [apache.step, hm, hft, matchGroups, applyGroups, he]⟩
    obtain ⟨msg, hmsg⟩ := hstep
    have hout : (apache.run c lines)[i]? = some (.warning msg (i + 1)) := by
      rw [apache_run_getElem, hline]
      simp [hmsg]
    refine ⟨⟨msg, hout⟩, ?_, fun j => apache_run_getElem c lines j⟩
    exact countP_eraseIdx_of_not Outcome.isRow _ i _ hout rfl
  · intro st pat num line ls h1 h2 h3 h4 hfail
    have hstep : ∃ msg,
        iis.step st num line = (st, some (.warning msg (num + 1))) := by
      rcases hfail with hnone | ⟨caps, p, rest, e, hm, hlen, he⟩
      · exact ⟨"Line contains invalid data",
          by simp [iis.step, h1, h2, h3, h4, hnone]⟩
      · obtain ⟨a, b, t, hft⟩ : ∃ a b t, st.rowFields = a :: b :: t := by
          rcases hf : st.rowFields with _ | ⟨a, _ | ⟨b, t⟩⟩
          · rw [hf] at hlen; simp at hlen
          · rw [hf] at hlen; simp at hlen
          · exact ⟨a, b, t, rfl⟩
        rw [hft] at he
        simp only [List.map_cons] at he
        exact ⟨e, by simp [iis.step, h1, h2, h3, h4, hm, hft, matchGroups,
          applyGroups, he]⟩
    obtain ⟨msg, hmsg⟩ := hstep
    refine ⟨msg, hmsg, ?_⟩
    simp only [iis.runAux, hmsg]

/-- C2 witness: the parser-failure branch on the seven-field COMMON format
(the 31-April line matches the `%t` regex but the time parser raises), and
the no-match branch on a ready IIS state. -/
theorem C2_amended_witness :
    ([c2badline][0]? = some c2badline) ∧
    (∃ caps p rest e,
       rmatch true commonCompiled.pattern (pyRstrip c2badline) =
         some (caps, p, rest) ∧
       2 ≤ commonCompiled.fields.length ∧
       applyFuncs commonCompiled.funcs
         (extractGroups commonCompiled.fields caps) = .error e) ∧
    (∃ msg, (apache.run commonCompiled [c2badline])[0]? =
       some (.warning msg 1)) ∧
    ("abc".data.head? ≠ some '#') ∧ (iisReady.version ≠ none) ∧
    (iisReady.fields ≠ []) ∧
    (iisReady.rowPattern = some (iisReady.rowPattern.getD .eps)) ∧
    (rmatch false (iisReady.rowPattern.getD .eps) (pyRstrip "abc".data) =
       none) ∧
    (∃ msg, iis.step iisReady 5 "abc".data =
       (iisReady, some (.warning msg 6)) ∧
       iis.runAux iisReady 5 ["abc".data] =
         ([.warning msg 6], (iis.runAux iisReady 6 []).2)) := by
  refine ⟨rfl, ⟨_, _, _, _, by rfl, by decide, by rfl⟩, ?_, by decide,
    by decide, by decide, by rfl, by rfl, ?_⟩
  · exact (C2_amended_failed_line_warns.1 commonCompiled [c2badline] 0
      c2badline rfl (Or.inr ⟨_, _, _, _, by rfl, by decide, by rfl⟩)).1
  · have h := C2_amended_failed_line_warns.2 iisReady
      (iisReady.rowPattern.getD .eps) 5 "abc".data [] (by decide) (by decide)
      (by decide) (by rfl) (Or.inl (by rfl))
    obtain ⟨msg, hm, hr⟩ := h
    exact ⟨msg, hm, by simpa using hr⟩

/-- Every successful matcher result is produced by the continuation, so a
postcondition closed under the continuation holds of the result. -/
theorem mrun_post (ci : Bool) (P : MRes → Prop) :
    ∀ fuel r caps pos s (k : Caps → Nat → List Char → Option MRes),
      (∀ c p t res, k c p t = some res → P res) →
      ∀ res, mrun ci fuel r caps pos s k = some res → P res := by
  intro fuel
  induction fuel with
  | zero =>
      intro r caps pos s k _ res h
      simp [mrun] at h
  | succ f ih =>
      intro r caps pos s k hk res h
      cases r with
      | eps => exact hk _ _ _ _ h
      | bol =>
          simp only [mrun] at h
          split at h
          · exact hk _ _ _ _ h
          · exact Option.noConfusion h
      | eol =>
          simp only [mrun] at h
          split at h
          · exact hk _ _ _ _ h
          · exact Option.noConfusion h
      | lit c =>
          cases s with
          | nil => simp [mrun] at h
          | cons x t =>
              simp only [mrun] at h
              split at h
              · exact hk _ _ _ _ h
              · exact Option.noConfusion h
      | dot =>
          cases s with
          | nil => simp [mrun] at h
          | cons x t =>
              simp only [mrun] at h
              split at h
              · exact Option.noConfusion h
              · exact hk _ _ _ _ h
      | cls neg items =>
          cases s with
          | nil => simp [mrun] at h
          | cons x t =>
              simp only [mrun] at h
              split at h
              · exact hk _ _ _ _ h
              · exact Option.noConfusion h
      | cat a b =>
          simp only [mrun] at h
          exact ih a caps pos s _
            (fun c p t res' hh => ih b c p t k hk res' hh) res h
      | alt a b =>
          simp only [mrun] at h
          cases hm : mrun ci f a caps pos s k with
          | some v =>
              rw [hm] at h
              cases h
              exact ih a caps pos s k hk res hm
          | none =>
              rw [hm] at h
              exact ih b caps pos s k hk res h
      | star r' =>
          simp only [mrun] at h
          cases hm : mrun ci f r' caps pos s (fun c' p' s' =>
              if pos < p' then mrun ci f (.star r') c' p' s' k else none) with
          | some v =>
              rw [hm] at h
              cases h
              refine ih r' caps pos s _ ?_ res hm
              intro c p t res' hh
              by_cases hp : pos < p
              · rw [if_pos hp] at hh
                exact ih (.star r') c p t k hk res' hh
              · rw [if_neg hp] at hh
                exact Option.noConfusion hh
          | none =>
              rw [hm] at h
              exact hk _ _ _ _ h
      | group name r' =>
          simp only [mrun] at h
          refine ih r' caps pos s _ ?_ res h
          intro c p t res' hh
          cases name with
          | some n => exact hk _ _ _ _ hh
          | none => exact hk _ _ _ _ hh
      | cond name r' =>
          simp only [mrun] at h
          split at h
          · exact ih r' caps pos s k hk res h
          · exact hk _ _ _ _ h

/-- Matching a fragment list that ends in `$` consumes the whole input:
the remaining suffix of any successful match is empty. -/
theorem matchAll_eol (ci : Bool) :
    ∀ (l : List Regex) fuel caps pos s res,
      mrun ci fuel (Regex.all (l ++ [Regex.eol])) caps pos s
        (fun c p t => some (c, p, t)) = some res → res.2.2 = [] := by
  intro l
  induction l with
  | nil =>
      intro fuel caps pos s res h
      cases fuel with
      | zero => simp [mrun] at h
      | succ f =>
          cases f with
          | zero =>
              simp [Regex.all, mrun] at h
          | succ f' =>
              cases s with
              | nil =>
                  simp only [Regex.all, List.nil_append, List.foldr, mrun,
                    if_true] at h
                  simp at h
                  simp [← h]
              | cons x t =>
                  simp only [Regex.all, List.nil_append, List.foldr, mrun] at h
                  simp at h
  | cons x l' ih =>
      intro fuel caps pos s res h
      cases fuel with
      | zero => simp [mrun] at h
      | succ f =>
          have he : Regex.all ((x :: l') ++ [Regex.eol]) =
              .cat x (Regex.all (l' ++ [Regex.eol])) := rfl
          rw [he] at h
          simp only [mrun] at h
          exact mrun_post ci (fun r => r.2.2 = []) f x caps pos s _
            (fun c p t res' hh => ih f c p t res' hh) res h

/-- C6 (amended): the IIS row regex is compiled with both anchors
(`'^' + pattern + '$'`), so any successful match of such a pattern
consumes the entire stripped line and a valid row followed by trailing
extra text degrades to a Warning (shown concretely); the Apache row
pattern, in contrast, is only start-anchored via `re.match`, so the same
kind of line still yields a Row there. -/
theorem C6_amended_anchoring :
    (∀ (ci : Bool) (frags : List Regex) (s : List Char)
       (caps : Caps) (p : Nat) (rest : List Char),
       rmatch ci (Regex.all ([Regex.bol] ++ frags ++ [Regex.eol])) s =
         some (caps, p, rest) → rest = []) ∧
    (iis.run (iisHeader ++ ["200 300 EXTRA".data])).1 =
      [.warning "Line contains invalid data" 3] ∧
    apache.sourceRun apache.COMMON [c6line] = .ok ([.row c1row], 1) := by
  refine ⟨?_, by rfl, by rfl⟩
  intro ci frags s caps p rest h
  have he : ([Regex.bol] ++ frags ++ [Regex.eol]) =
      ((Regex.bol :: frags) ++ [Regex.eol]) := by simp
  rw [he] at h
  exact matchAll_eol ci (Regex.bol :: frags) _ [] 0 s (caps, p, rest) h

/-- C6 witness: the anchored-match fact applied to a one-character
pattern and input. -/
theorem C6_amended_witness :
    rmatch false (Regex.all ([Regex.bol] ++ [Regex.lit 'a'] ++ [Regex.eol]))
        "a".data = some ([], 1, []) ∧
    ([] : List Char) = [] :=
  ⟨by rfl, C6_amended_anchoring.1 false [Regex.lit 'a'] "a".data [] 1 []
    (by rfl)⟩

/-- C7 (amended): in the IIS dialect every parenthesized header token
whose identifier is `Referer`/`Referrer` in any case is special-cased to
the URL type (whose table entry carries the URL parser and pattern); in
the Apache dialect the special case matches the resolved field name
against `req_referer`/`req_referrer` only, so request-header specs
`%{Referer}i`/`%{REFERRER}i` compile with the URL parser while the
output-header spec `%{Referer}o` keeps the opaque-string parser. -/
theorem C7_amended_referer :
    (∀ (pfx ident : List Char),
       (pyLower ident = "referer".data ∨ pyLower ident = "referrer".data) →
       ∃ python, iis.fieldSpec pfx "(".data ident =
         .ok (pfx ++ '(' :: (ident ++ [')']), python, "url")) ∧
    iis.TYPES "url" = some (.urlK, parsers.URL) ∧
    (apache.parseLogFormat "%\x7bReferer\x7di".data).map
        (fun c => (c.fields, c.funcs)) =
      .ok ([some "req_Referer".data], [.urlK]) ∧
    (apache.parseLogFormat "%\x7bREFERRER\x7di".data).map (fun c => c.funcs) =
      .ok [.urlK] ∧
    (apache.parseLogFormat "%\x7bReferer\x7do".data).map (fun c => c.funcs) =
      .ok [.stringApacheK] := by
  refine ⟨?_, by rfl, by rfl, by rfl, by rfl⟩
  intro pfx ident h
  rcases pfx with _ | ⟨c, t⟩ <;> rcases h with h | h <;>
    simp [iis.fieldSpec, sanitize_name, h] <;> exact ⟨_, rfl⟩

/-- C7 witness: the IIS special case applied to `cs(Referer)`. -/
theorem C7_amended_witness :
    pyLower "Referer".data = "referer".data ∧
    ∃ python, iis.fieldSpec "cs".data "(".data "Referer".data =
      .ok ("cs".data ++ '(' :: ("Referer".data ++ [')']), python, "url") :=
  ⟨by rfl, C7_amended_referer.1 "cs".data "Referer".data (Or.inl (by rfl))⟩

/-- Scanning a `{...}` payload that contains no closing brace stops
exactly at the appended closing brace. -/
theorem scanBrace_closes : ∀ (p r : List Char), ¬ '\x7d' ∈ p →
    apache.scanBrace (p ++ '\x7d' :: r) = some (p, r) := by
  intro p
  induction p with
  | nil => intro r _; rfl
  | cons c t ih =>
      intro r hm
      have hc : c ≠ '\x7d' := fun hx => hm (by simp [hx])
      have h1 : apache.scanBrace ((c :: t) ++ '\x7d' :: r) =
          (apache.scanBrace (t ++ '\x7d' :: r)).map
            (fun pr => (c :: pr.1, pr.2)) := by
        simp [apache.scanBrace, hc]
      rw [h1, ih r (fun hx => hm (by simp [hx]))]
      rfl

/-- A `{` directly after the `%` admits no status-filter consumption. -/
theorem statusFilterRests_brace (u : List Char) :
    apache.statusFilterRests ('\x7b' :: u) = ['\x7b' :: u] := by
  rcases u with _ | ⟨a, _ | ⟨b, v⟩⟩ <;> rfl

/-- A `{` admits no `[<>]` modifier consumption. -/
theorem modRests_brace (u : List Char) :
    apache.modRests ('\x7b' :: u) = ['\x7b' :: u] := by
  rfl

/-- The brace alternatives on a well-bracketed payload, greedy first. -/
theorem braceAlts_payload (p r : List Char) (hm : ¬ '\x7d' ∈ p) :
    apache.braceAlts ('\x7b' :: (p ++ '\x7d' :: r)) =
      [(some p, r), (none, '\x7b' :: (p ++ '\x7d' :: r))] := by
  simp [apache.braceAlts, scanBrace_closes p r hm]

/-- The field-token scanner on `%{payload}X` (no stray `}` in the
payload, `X` a letter) extracts exactly the payload and the suffix. -/
theorem tryToken_payload (p : List Char) (suffix : Char)
    (hm : ¬ '\x7d' ∈ p) (hs : isAsciiAlpha suffix = true) :
    apache.tryToken ('%' :: '\x7b' :: (p ++ ['\x7d', suffix])) =
      some (some p, suffix, []) := by
  have h3 := braceAlts_payload p [suffix] hm
  simp [apache.tryToken, statusFilterRests_brace, modRests_brace, h3, hs]

/-- Splitting a LogFormat consisting of exactly one `%{payload}X` token. -/
theorem splitFormat_payload (p : List Char) (suffix : Char)
    (hm : ¬ '\x7d' ∈ p) (hs : isAsciiAlpha suffix = true) :
    apache.splitFormat ('%' :: '\x7b' :: (p ++ ['\x7d', suffix])) =
      [.sep [], .tok (some p) suffix, .sep []] := by
  have hlen : ('%' :: '\x7b' :: (p ++ ['\x7d', suffix])).length + 1 =
      (p.length + 4) + 1 := by simp
  rw [apache.splitFormat, hlen]
  rw [show apache.splitFormatAux ((p.length + 4) + 1)
        ('%' :: '\x7b' :: (p ++ ['\x7d', suffix])) =
      (match apache.tryToken ('%' :: '\x7b' :: (p ++ ['\x7d', suffix])) with
       | some (payload, suffix, rest) =>
           .sep [] :: .tok payload suffix ::
             apache.splitFormatAux (p.length + 4) rest
       | none =>
           match apache.splitFormatAux (p.length + 4)
               ('\x7b' :: (p ++ ['\x7d', suffix])) with
           | .sep q :: r => .sep ('%' :: q) :: r
           | r => .sep ['%'] :: r) from rfl]
  rw [tryToken_payload p suffix hm hs]
  rcases hn : p.length + 4 with _ | n
  · simp at hn
  · rfl

/-- Compiling the single-token format `%{p}p` with a non-empty payload
outside the port vocabulary fails with the `_generate_name` error. -/
theorem parse_port_payload_invalid (p : List Char) (hm : ¬ '\x7d' ∈ p)
    (hp : p ≠ []) (h1 : p ≠ "canonical".data) (h2 : p ≠ "local".data)
    (h3 : p ≠ "remote".data) :
    apache.parseLogFormat ('%' :: '\x7b' :: (p ++ ['\x7d', 'p'])) =
      .error "Invalid format in p spec" := by
  rw [apache.parseLogFormat, splitFormat_payload p 'p' hm rfl]
  simp only [apache.plfAux, if_true]
  rw [show apache._parse_log_field (some p) 'p' =
      (do
        let name ← apache._generate_name "port" (some p) 'p'
        apache._generate_parse_fn (some p) "integer" name) from rfl]
  have hg : apache._generate_name "port" (some p) 'p' =
      .error "Invalid format in p spec" := by
    simp [apache._generate_name, apache.pyTruthy, hp, h1, h2, h3]
  rw [hg]
  rfl

/-- Compiling the single-token format `%{p}P` with a non-empty payload
outside the pid vocabulary fails with the `_generate_name` error. -/
theorem parse_pid_payload_invalid (p : List Char) (hm : ¬ '\x7d' ∈ p)
    (hp : p ≠ []) (h1 : p ≠ "pid".data) (h2 : p ≠ "tid".data)
    (h3 : p ≠ "hextid".data) :
    apache.parseLogFormat ('%' :: '\x7b' :: (p ++ ['\x7d', 'P'])) =
      .error "Invalid format in P spec" := by
  rw [apache.parseLogFormat, splitFormat_payload p 'P' hm rfl]
  simp only [apache.plfAux, if_true]
  rw [show apache._parse_log_field (some p) 'P' =
      (do
        let name ← apache._generate_name "pid" (some p) 'P'
        apache._generate_parse_fn (some p) "integer" name) from rfl]
  have hg : apache._generate_name "pid" (some p) 'P' =
      .error "Invalid format in P spec" := by
    simp [apache._generate_name, apache.pyTruthy, hp, h1, h2, h3]
  rw [hg]
  rfl

/-- C8: `%{payload}p` compiles with field name `port`, `local_port` or
`remote_port` exactly for the payloads `canonical`, `local`, `remote`; any
other payload — the empty one included (its `None` field name trips the
namedtuple keyword check) — makes the constructor raise before any line is
read; likewise `%{payload}P` admits exactly `pid`/`tid`/`hextid`. -/
theorem C8_port_pid_vocabulary :
    (∀ p : List Char, ¬ '\x7d' ∈ p → p ≠ "canonical".data →
       p ≠ "local".data → p ≠ "remote".data →
       ∃ e, apache.parseLogFormat ('%' :: '\x7b' :: (p ++ ['\x7d', 'p'])) =
         .error e) ∧
    (apache.parseLogFormat "%\x7bcanonical\x7dp".data).map (fun c => c.fields) =
      .ok [some "port".data] ∧
    (apache.parseLogFormat "%\x7blocal\x7dp".data).map (fun c => c.fields) =
      .ok [some "local_port".data] ∧
    (apache.parseLogFormat "%\x7bremote\x7dp".data).map (fun c => c.fields) =
      .ok [some "remote_port".data] ∧
    (∀ p : List Char, ¬ '\x7d' ∈ p → p ≠ "pid".data → p ≠ "tid".data →
       p ≠ "hextid".data →
       ∃ e, apache.parseLogFormat ('%' :: '\x7b' :: (p ++ ['\x7d', 'P'])) =
         .error e) ∧
    (apache.parseLogFormat "%\x7bpid\x7dP".data).map (fun c => c.fields) =
      .ok [some "pid".data] ∧
    (apache.parseLogFormat "%\x7btid\x7dP".data).map (fun c => c.fields) =
      .ok [some "tid".data] ∧
    (apache.parseLogFormat "%\x7bhextid\x7dP".data).map (fun c => c.fields) =
      .ok [some "hextid".data] := by
  refine ⟨?_, by rfl, by rfl, by rfl, ?_, by rfl, by rfl, by rfl⟩
  · intro p hm h1 h2 h3
    by_cases hp : p = []
    · subst hp
      exact ⟨"Type names and field names cannot be a keyword", by rfl⟩
    · exact ⟨"Invalid format in p spec",
        parse_port_payload_invalid p hm hp h1 h2 h3⟩
  · intro p hm h1 h2 h3
    by_cases hp : p = []
    · subst hp
      exact ⟨"Type names and field names cannot be a keyword", by rfl⟩
    · exact ⟨"Invalid format in P spec",
        parse_pid_payload_invalid p hm hp h1 h2 h3⟩

/-- C8 witness: the invalid payload `foo` applied to the port vocabulary
fact. -/
theorem C8_witness :
    (¬ '\x7d' ∈ "foo".data) ∧ ("foo".data ≠ "canonical".data) ∧
    ∃ e, apache.parseLogFormat
        ('%' :: '\x7b' :: ("foo".data ++ ['\x7d', 'p'])) = .error e :=
  ⟨by decide, by decide, C8_port_pid_vocabulary.1 "foo".data (by decide)
    (by decide) (by decide) (by decide)⟩

end Lars
